import Mathlib

/-!
Verification development for the f3 Forth virtual machine.

This file gives a shallow embedding, in Lean 4, of the parts of the f3
runtime that the specification's claims talk about:

* `src/kernel.rs`    — the `Kernel` struct: heap (cell arena), string arena,
  data/return stack pointers, stack accessors, counted-string primitives;
* `src/runtime.rs`   — the `ForthRuntime` struct: the system-variable pointers,
  `f_abort` / `f_clear` / abort flag, `emit_cell`, `make_word`;
* `src/internals/compiler.rs` — `f_find`, `f_number_q`, `f_comma`, `f_literal`,
  `f_immediate_q`, `f_d_interpret`, `f_d_compile`, `f_execute`;
* `src/internals/inner.rs`    — the threaded-code inner interpreter
  `i_definition` and its helpers;
* `src/internals/general.rs`  — `u_is_integer` and the arithmetic / comparison
  builtins.

Modelling conventions:

* Machine integers: heap cells are `i64` in Rust and are modelled as
  unbounded `Int`; every cast `as usize` is modelled by `intToUsize`
  (reduction modulo 2^64 of the two's-complement value) and every cast
  `usize -> i64` by `usizeToInt`.  Bit masks (`ADDRESS_MASK`,
  `BUILTIN_FLAG`, `IMMEDIATE_FLAG`) use `Nat.land` exactly as the Rust
  code uses `&`.
* Fallible code: every Rust `panic!` (stack corruption checks, string-space
  overflow, out-of-bounds byte access) is modelled by `Except.error`; the
  VM operations therefore live in `Except String`.
* The heap and the string arena are modelled as total functions
  `Nat → Int` / `Nat → Nat`; plain `self.heap[addr]` reads and writes,
  which in Rust would panic outside `0..DATA_SIZE`, are modelled as total,
  and the theorems below only exercise them at in-range addresses.
* Loops (`f_find`'s dictionary walk, the inner interpreter) are written
  with an explicit fuel parameter; running out of fuel is the distinguished
  error `"fuel"` and all theorems quantify over, or instantiate, enough fuel.
* The `Msg` logger (`internals/messages.rs` is referenced by `main.rs` but
  the file is not present in the sources) and `debug_step` (called in
  `inner.rs`, defined nowhere in the sources) are modelled from the spec:
  the Diagnostics collaborator "never throws, never halts the VM", so both
  are modelled as appending to / not touching a message log and leaving all
  VM state unchanged.
-/

namespace F3

/-! ## Constants (src/kernel.rs, src/runtime.rs) -/

def DATA_SIZE : Nat := 10000
def STRING_SIZE : Nat := 10000
def BUF_SIZE : Nat := 132
def ALLOC_START : Nat := DATA_SIZE / 2
def STACK_START : Nat := ALLOC_START - 1
def RET_START : Nat := DATA_SIZE - 1
def WORD_START : Nat := 0

def BUILTIN : Int := 100000
def VARIABLE : Int := 100001
def CONSTANT : Int := 100002
def LITERAL : Int := 100003
def STRLIT : Int := 100004
def DEFINITION : Int := 100005
def BRANCH : Int := 100006
def BRANCH0 : Int := 100007
def ABORT : Int := 100008
def EXIT : Int := 100009
def BREAK : Int := 100010
def EXEC : Int := 100011

def TRUE : Int := -1
def FALSE : Int := 0
def IMMEDIATE_FLAG : Nat := 0x4000000000000000
def BUILTIN_FLAG : Nat := 0x2000000000000000
def ADDRESS_MASK : Nat := 0x00FFFFFFFFFFFFFF

/-- Rust `as usize` on an `i64` value: two's-complement reduction mod 2^64. -/
def intToUsize (i : Int) : Nat := (i % (2 ^ 64 : Int)).toNat

/-- Rust `as i64` on a `usize` value: two's-complement reinterpretation. -/
def usizeToInt (n : Nat) : Int :=
  if n % 2 ^ 64 < 2 ^ 63 then ((n % 2 ^ 64 : Nat) : Int)
  else ((n % 2 ^ 64 : Nat) : Int) - 2 ^ 64

/-- `x & ADDRESS_MASK` strips the flag bits: the mask is `2^56 - 1`. -/
def maskAddr (x : Nat) : Nat := Nat.land x ADDRESS_MASK

/-! ## A model of Rust `str::parse::<i64>`

`u_is_integer` (src/internals/general.rs) and `f_number_q`
(src/internals/compiler.rs) defer to the Rust standard library's integer
parser: an optional single `+`/`-` sign, then one or more ASCII decimal
digits, and the value must fit in a signed 64-bit integer.  Strings are
modelled as lists of byte values. -/

def digitOfByte (b : Nat) : Option Nat :=
  if 48 ≤ b ∧ b ≤ 57 then some (b - 48) else none

def parseDigitsAux : Nat → List Nat → Option Nat
  | acc, [] => some acc
  | acc, b :: bs =>
    match digitOfByte b with
    | some d => parseDigitsAux (acc * 10 + d) bs
    | none => none

/-- Model of Rust `"...".parse::<i64>()`, on a byte-list string. -/
def parseI64 (bs : List Nat) : Option Int :=
  match bs with
  | [] => none
  | b :: rest =>
    let signed : Bool × List Nat :=
      if b = 45 then (true, rest)
      else if b = 43 then (false, rest) else (false, bs)
    match signed.2 with
    | [] => none
    | digits =>
      match parseDigitsAux 0 digits with
      | none => none
      | some n =>
        if signed.1 then
          if n ≤ 2 ^ 63 then some (-(n : Int)) else none
        else
          if n ≤ 2 ^ 63 - 1 then some (n : Int) else none

/-- `u_is_integer` (src/internals/general.rs): `s.parse::<i64>().is_ok()`. -/
def uIsInteger (bs : List Nat) : Bool := (parseI64 bs).isSome

/-! ## The Kernel (src/kernel.rs) -/

/-- The `Kernel` struct: heap of `DATA_SIZE` cells, string arena of
`STRING_SIZE` bytes, and the three pointers.  The builtin function table
(`builtins: Vec<BuiltInFn>`) holds Rust function pointers and is passed to
the interpreter functions below as an explicit dispatch parameter instead
of being stored in the state. -/
structure Kernel where
  heap : Nat → Int
  strings : Nat → Nat
  stackPtr : Nat
  returnPtr : Nat
  stringPtr : Nat

/-- `Kernel::get`. -/
def Kernel.get (k : Kernel) (addr : Nat) : Int := k.heap addr

/-- `Kernel::set`. -/
def Kernel.set (k : Kernel) (addr : Nat) (v : Int) : Kernel :=
  { k with heap := fun a => if a = addr then v else k.heap a }

/-- `Kernel::incr`. -/
def Kernel.incr (k : Kernel) (addr : Nat) : Kernel := k.set addr (k.get addr + 1)

/-- `Kernel::decr`. -/
def Kernel.decr (k : Kernel) (addr : Nat) : Kernel := k.set addr (k.get addr - 1)

/-- `Kernel::delta`. -/
def Kernel.delta (k : Kernel) (addr : Nat) (d : Int) : Kernel :=
  k.set addr (k.get addr + d)

/-- `Kernel::push`: panics ("Stack corruption detected") when
`stack_ptr <= 0`, otherwise decrements the stack pointer and stores. -/
def Kernel.push (k : Kernel) (v : Int) : Except String Kernel :=
  if k.stackPtr ≤ 0 then
    .error "Stack corruption detected: cannot push"
  else
    let k1 : Kernel := { k with stackPtr := k.stackPtr - 1 }
    .ok (k1.set k1.stackPtr v)

/-- `Kernel::pop`: panics when `stack_ptr >= STACK_START` (empty stack),
otherwise reads the top cell and increments the stack pointer. -/
def Kernel.pop (k : Kernel) : Except String (Int × Kernel) :=
  if k.stackPtr ≥ STACK_START then
    .error "Stack corruption detected: cannot pop"
  else
    .ok (k.heap k.stackPtr, { k with stackPtr := k.stackPtr + 1 })

/-- `Kernel::top`. -/
def Kernel.top (k : Kernel) : Int := k.heap k.stackPtr

/-- `Kernel::peek`. -/
def Kernel.peek (k : Kernel) (n : Nat) : Int := k.heap (k.stackPtr + n)

/-- `Kernel::stack_check`: panics ("Stack underflow") when fewer than
`needed` items are available. -/
def Kernel.stackCheck (k : Kernel) (needed : Nat) (word : String) :
    Except String Unit :=
  if STACK_START - k.stackPtr < needed then
    .error (word ++ ": Stack underflow")
  else
    .ok ()

/-- `Kernel::reset`: restore both stack pointers to their initial tops. -/
def Kernel.reset (k : Kernel) : Kernel :=
  { k with stackPtr := STACK_START, returnPtr := RET_START }

/-- `Kernel::pop2_push1`. -/
def Kernel.pop2Push1 (k : Kernel) (_word : String) (f : Int → Int → Int) :
    Except String Kernel := do
  let _ ← k.stackCheck 2 "pop2_push1"
  let (j, k1) ← k.pop
  let (kk, k2) ← k1.pop
  k2.push (f kk j)

/-- `Kernel::pop1_push1`. -/
def Kernel.pop1Push1 (k : Kernel) (word : String) (f : Int → Int) :
    Except String Kernel := do
  let _ ← k.stackCheck 1 word
  let (x, k1) ← k.pop
  k1.push (f x)

/-! ### Counted strings (src/kernel.rs) -/

/-- Write a list of bytes into the string arena starting at `addr`;
each Rust store is `self.strings[..] = c as u8`, hence the `% 256`. -/
def writeBytes (s : Nat → Nat) (addr : Nat) : List Nat → (Nat → Nat)
  | [] => s
  | b :: bs =>
    writeBytes (fun a => if a = addr then b % 256 else s a) (addr + 1) bs

/-- `Kernel::string_new`: place a counted string at the free-string pointer
(the heap cell at index `string_ptr`), advance that pointer, and return the
string's address.  Out-of-bounds stores, which would panic in Rust, are the
error case. -/
def Kernel.stringNew (k : Kernel) (str : List Nat) :
    Except String (Nat × Kernel) :=
  let ptr := intToUsize (k.heap k.stringPtr)
  if STRING_SIZE ≤ ptr + str.length then
    .error "string_new: out of bounds"
  else
    let s1 : Nat → Nat := fun a => if a = ptr then str.length % 256 else k.strings a
    let s2 := writeBytes s1 (ptr + 1) str
    let k1 : Kernel := { k with strings := s2 }
    .ok (ptr, k1.set k.stringPtr ((ptr + 1 + str.length : Nat) : Int))

/-- `Kernel::string_save`: copy a string slice to `to`, adding a count byte. -/
def Kernel.stringSave (k : Kernel) (str : List Nat) (dest : Nat) : Kernel :=
  let s1 : Nat → Nat := fun a => if a = dest then str.length % 256 else k.strings a
  { k with strings := writeBytes s1 (dest + 1) str }

/-- `Kernel::string_get`: read the counted string at `addr` (flag bits of the
start address are masked off; the length byte is read unmasked, as in the
source). -/
def Kernel.stringGet (k : Kernel) (addr : Nat) : List Nat :=
  let strAddr := maskAddr addr + 1
  (List.range (k.strings addr)).map fun i => k.strings (strAddr + i)

/-- `Kernel::string_set`: store a counted string at the masked address. -/
def Kernel.stringSet (k : Kernel) (addr : Nat) (str : List Nat) : Kernel :=
  let strAddr := maskAddr addr
  let s1 : Nat → Nat := fun a => if a = strAddr then str.length % 256 else k.strings a
  { k with strings := writeBytes s1 (strAddr + 1) str }

/-- The copy loop of `Kernel::string_copy`:
`strings[to + i + 1] = strings[from + i + offset]` for `i in 0..length`. -/
def copyLoop (s : Nat → Nat) (from_ dest offset : Nat) : Nat → (Nat → Nat)
  | 0 => s
  | n + 1 =>
    let s1 := copyLoop s from_ dest offset n
    fun a => if a = dest + n + 1 then s1 (from_ + n + offset) else s1 a

/-- `Kernel::string_copy`: copy `length` bytes to a counted string at `to`. -/
def Kernel.stringCopy (k : Kernel) (from_ dest length : Nat) (counted : Bool) :
    Kernel :=
  let s1 : Nat → Nat := fun a => if a = dest then length % 256 else k.strings a
  let offset := if counted then 1 else 0
  { k with strings := copyLoop s1 from_ dest offset length }

/-- `Kernel::string_equal` on raw arenas: length bytes first, then all bytes
`0..=len` (the count byte is compared again by the source's loop). -/
def stringEqual (s : Nat → Nat) (a1 a2 : Nat) : Bool :=
  if s a1 ≠ s a2 then false
  else (List.range (s a1 + 1)).all fun i => s (a1 + i) = s (a2 + i)

def Kernel.stringEqual (k : Kernel) (a1 a2 : Nat) : Bool :=
  F3.stringEqual k.strings a1 a2

/-- `Kernel::string_length`. -/
def Kernel.stringLength (k : Kernel) (addr : Nat) : Nat := k.strings addr

/-- `Kernel::byte_get`: panics out of bounds. -/
def Kernel.byteGet (k : Kernel) (addr : Nat) : Except String Nat :=
  if addr ≥ STRING_SIZE then .error "byte_get: index out of bounds"
  else .ok (k.strings addr)

/-- `Kernel::byte_set`: panics out of bounds. -/
def Kernel.byteSet (k : Kernel) (addr : Nat) (v : Nat) : Except String Kernel :=
  if addr ≥ STRING_SIZE then .error "byte_set: index out of bounds"
  else .ok { k with strings := fun a => if a = addr then v % 256 else k.strings a }

end F3

namespace F3

/-! ## The runtime (src/runtime.rs)

`ForthRuntime` owns the kernel plus the named pointers into the heap where
the system variables live.  Fields of the Rust struct that no claim touches
(the control stack, reader/file handles, timer, stepper pointers) are not
modelled.  `msgLog` is the model of the `Msg` diagnostics collaborator:
`internals/messages.rs` is referenced by `main.rs` but absent from the
sources, so, following the spec (§6 Diagnostics: "never throws, never halts
the VM"), a warning or error only appends an entry. -/
structure ForthRuntime where
  kernel : Kernel
  herePtr : Nat
  contextPtr : Nat
  basePtr : Nat
  padPtr : Nat
  tmpPtr : Nat
  lastPtr : Nat
  statePtr : Nat
  abortPtr : Nat
  exitFlag : Bool
  msgLog : List String

namespace ForthRuntime

/-- `self.kernel.get(..)` -/
def get (rt : ForthRuntime) (addr : Nat) : Int := rt.kernel.get addr

/-- `self.kernel.set(..)` -/
def set (rt : ForthRuntime) (addr : Nat) (v : Int) : ForthRuntime :=
  { rt with kernel := rt.kernel.set addr v }

/-- `self.kernel.incr(..)` -/
def incr (rt : ForthRuntime) (addr : Nat) : ForthRuntime :=
  { rt with kernel := rt.kernel.incr addr }

/-- `self.kernel.push(..)` -/
def push (rt : ForthRuntime) (v : Int) : Except String ForthRuntime :=
  (rt.kernel.push v).map fun k => { rt with kernel := k }

/-- `self.kernel.pop()` -/
def pop (rt : ForthRuntime) : Except String (Int × ForthRuntime) :=
  rt.kernel.pop.map fun p => (p.1, { rt with kernel := p.2 })

/-- `self.kernel.top()` -/
def top (rt : ForthRuntime) : Int := rt.kernel.top

/-- `self.kernel.stack_check(..)` -/
def stackCheck (rt : ForthRuntime) (needed : Nat) (word : String) :
    Except String Unit :=
  rt.kernel.stackCheck needed word

/-- Modelled from the spec: `Msg::warning` of the absent
`internals/messages.rs`, a diagnostics event that only records a message. -/
def warning (rt : ForthRuntime) (origin text : String) : ForthRuntime :=
  { rt with msgLog := (origin ++ ": " ++ text) :: rt.msgLog }

/-- Modelled from the spec: `Msg::error`, same shape as `warning`. -/
def errorMsg (rt : ForthRuntime) (origin text : String) : ForthRuntime :=
  { rt with msgLog := (origin ++ ": " ++ text) :: rt.msgLog }

end ForthRuntime

/-- `ForthRuntime::here`: the current value of the HERE variable. -/
def here (rt : ForthRuntime) : Nat := intToUsize (rt.get rt.herePtr)

/-- `ForthRuntime::emit_cell`: store at HERE, then increment HERE. -/
def emitCell (rt : ForthRuntime) (v : Int) : ForthRuntime :=
  let addr := here rt
  (rt.set addr v).incr rt.herePtr

/-- `ForthRuntime::set_abort_flag`. -/
def setAbortFlag (rt : ForthRuntime) (v : Bool) : ForthRuntime :=
  rt.set rt.abortPtr (if v then -1 else 0)

/-- `ForthRuntime::get_abort_flag`. -/
def getAbortFlag (rt : ForthRuntime) : Bool :=
  if rt.kernel.get rt.abortPtr = FALSE then false else true

/-- `ForthRuntime::f_clear`: reset both stack pointers via `Kernel::reset`. -/
def fClear (rt : ForthRuntime) : ForthRuntime :=
  { rt with kernel := rt.kernel.reset }

/-- `ForthRuntime::f_abort`: `f_raw_mode_off` (terminal state only, no VM
effect), log the "Terminating execution" warning, clear both stacks, and
set the global abort flag. -/
def fAbort (rt : ForthRuntime) : ForthRuntime :=
  setAbortFlag (fClear (rt.warning "ABORT" "Terminating execution")) true

/-- `ForthRuntime::get_compile_mode`. -/
def getCompileMode (rt : ForthRuntime) : Bool :=
  if rt.kernel.get rt.statePtr = FALSE then false else true

/-- `ForthRuntime::set_compile_mode`. -/
def setCompileMode (rt : ForthRuntime) (v : Bool) : ForthRuntime :=
  rt.set rt.statePtr (if v then -1 else 0)

/-- The `for val in args { ptr += 1; set(ptr, *val) }` loop of `make_word`:
returns the final `ptr` together with the updated state. -/
def writeArgs (rt : ForthRuntime) (ptr : Nat) : List Int → Nat × ForthRuntime
  | [] => (ptr, rt)
  | a :: rest => writeArgs (rt.set (ptr + 1) a) (ptr + 1) rest

/-- `ForthRuntime::make_word`: build a word header (name pointer, payload
cells, back pointer) at HERE, update HERE and CONTEXT, and return the code
field address `back + 2`. -/
def makeWord (rt : ForthRuntime) (name : List Nat) (args : List Int) :
    Except String (Nat × ForthRuntime) := do
  let back := intToUsize (rt.kernel.get rt.herePtr) - 1
  let ptr := back + 1
  let (val, k) ← rt.kernel.stringNew name
  let rt1 : ForthRuntime := { rt with kernel := k }
  let rt2 := rt1.set ptr (usizeToInt val)
  let (ptr2, rt3) := writeArgs rt2 ptr args
  let ptr3 := ptr2 + 1
  let rt4 := rt3.set ptr3 (usizeToInt back)
  let rt5 := rt4.set rt4.herePtr (usizeToInt ptr3 + 1)
  let rt6 := rt5.set rt5.contextPtr (usizeToInt back + 1)
  .ok (back + 2, rt6)

/-- `ForthRuntime::make_variable`: a word whose payload is `[VARIABLE, 0]`;
returns the address of the value cell. -/
def makeVariable (rt : ForthRuntime) (name : List Nat) :
    Except String (Nat × ForthRuntime) := do
  let (codePtr, rt1) ← makeWord rt name [VARIABLE, 0]
  .ok (codePtr + 1, rt1)

end F3

namespace F3

/-! ## Return-stack and arithmetic builtins (src/internals/general.rs) -/

/-- `f_to_r` ( n -- ): pop the data stack onto the return stack. -/
def fToR (rt : ForthRuntime) : Except String ForthRuntime := do
  let _ ← rt.stackCheck 1 ">r"
  let (val, rt1) ← rt.pop
  let rt2 : ForthRuntime :=
    { rt1 with kernel := { rt1.kernel with returnPtr := rt1.kernel.returnPtr - 1 } }
  .ok (rt2.set rt2.kernel.returnPtr val)

/-- `f_r_from` ( -- n ): push the top of the return stack onto the data
stack (no underflow check in the source). -/
def fRFrom (rt : ForthRuntime) : Except String ForthRuntime := do
  let val := rt.kernel.get rt.kernel.returnPtr
  let rt1 ← rt.push val
  .ok { rt1 with kernel := { rt1.kernel with returnPtr := rt1.kernel.returnPtr + 1 } }

/-- `Kernel::set_return_ptr`. -/
def setReturnPtr (rt : ForthRuntime) (v : Nat) : ForthRuntime :=
  { rt with kernel := { rt.kernel with returnPtr := v } }

/-- `f_plus` (+): checks for two items, pops `a` then `b`, pushes `a + b`. -/
def fPlus (rt : ForthRuntime) : Except String ForthRuntime := do
  let _ ← rt.stackCheck 2 "+"
  let (a, rt1) ← rt.pop
  let (b, rt2) ← rt1.pop
  rt2.push (a + b)

/-- Lift a `Kernel::pop2_push1` builtin to the runtime. -/
def pop2Push1 (word : String) (f : Int → Int → Int) (rt : ForthRuntime) :
    Except String ForthRuntime :=
  (rt.kernel.pop2Push1 word f).map fun k => { rt with kernel := k }

/-- Lift a `Kernel::pop1_push1` builtin to the runtime. -/
def pop1Push1 (word : String) (f : Int → Int) (rt : ForthRuntime) :
    Except String ForthRuntime :=
  (rt.kernel.pop1Push1 word f).map fun k => { rt with kernel := k }

/-- `f_minus`. -/
def fMinus : ForthRuntime → Except String ForthRuntime :=
  pop2Push1 "-" fun a b => a - b

/-- `f_times`. -/
def fTimes : ForthRuntime → Except String ForthRuntime :=
  pop2Push1 "*" fun a b => a * b

/-- `f_less` (<): pushes `-1` when `a < b`, else `0`. -/
def fLess : ForthRuntime → Except String ForthRuntime :=
  pop2Push1 "<" fun a b => if a < b then -1 else 0

/-- `f_equal` (=). -/
def fEqual : ForthRuntime → Except String ForthRuntime :=
  pop2Push1 "=" fun a b => if a = b then -1 else 0

/-- `f_0equal` (0=). -/
def f0Equal : ForthRuntime → Except String ForthRuntime :=
  pop1Push1 "0=" fun a => if a = 0 then -1 else 0

/-- `f_0less` (0<). -/
def f0Less : ForthRuntime → Except String ForthRuntime :=
  pop1Push1 "0<" fun a => if a < 0 then -1 else 0

/-- `f_dup`. -/
def fDup (rt : ForthRuntime) : Except String ForthRuntime := do
  let _ ← rt.stackCheck 1 "dup"
  rt.push rt.top

/-! ## Dictionary search and number parsing (src/internals/compiler.rs) -/

/-- The `while link > 0` search loop of `f_find`: walk back pointers,
comparing counted strings.  `none` = out of fuel; `some none` = not found
(the walk reached link 0); `some (some link)` = first match. -/
def findLink (heap : Nat → Int) (strings : Nat → Nat) (sourceAddr : Nat) :
    Nat → Nat → Option (Option Nat)
  | 0, _ => none
  | fuel + 1, link =>
    if link > 0 then
      let strAddr := maskAddr (intToUsize (heap (link + 1)))
      if stringEqual strings sourceAddr strAddr then some (some link)
      else findLink heap strings sourceAddr fuel (intToUsize (heap link))
    else some none

/-- `f_find` ( s -- cfa T | s F ): search the dictionary from CONTEXT. -/
def fFind (fuel : Nat) (rt : ForthRuntime) : Except String ForthRuntime := do
  let _ ← rt.stackCheck 1 "find"
  let (src, rt1) ← rt.pop
  let sourceAddr := intToUsize src
  let link0 := intToUsize (rt1.kernel.get rt1.contextPtr) - 1
  match findLink rt1.kernel.heap rt1.kernel.strings sourceAddr fuel link0 with
  | none => .error "fuel"
  | some (some link) => do
    let rt2 ← rt1.push (usizeToInt link + 2)
    rt2.push TRUE
  | some none => do
    let rt2 ← rt1.push (usizeToInt sourceAddr)
    rt2.push FALSE

/-- `f_number_q` ( s -- n T | a F ): base-10 signed-integer parse of the
counted string at the popped address; the numeric-base variable at
`base_ptr` is never read. -/
def fNumberQ (rt : ForthRuntime) : Except String ForthRuntime := do
  let (bufAddr, rt1) ← rt.pop
  let numtext := rt1.kernel.stringGet (intToUsize bufAddr)
  if uIsInteger numtext then
    match parseI64 numtext with
    | some n => do
      let rt2 ← rt1.push n
      rt2.push TRUE
    | none => .error "unwrap on a failed parse"
  else do
    let rt2 ← rt1.push bufAddr
    rt2.push FALSE

/-- `f_comma` ( n -- ): store the popped value at HERE, increment HERE. -/
def fComma (rt : ForthRuntime) : Except String ForthRuntime := do
  let addr := intToUsize (rt.kernel.get rt.herePtr)
  let (val, rt1) ← rt.pop
  let rt2 := rt1.set addr val
  .ok (rt2.incr rt2.herePtr)

/-- `f_literal` ( n -- ): compile `[LITERAL, n]` at HERE. -/
def fLiteral (rt : ForthRuntime) : Except String ForthRuntime := do
  let rt1 ← rt.push LITERAL
  let rt2 ← fComma rt1
  fComma rt2

/-- `f_immediate_q` ( cfa -- flag ). -/
def fImmediateQ (rt : ForthRuntime) : Except String ForthRuntime := do
  let _ ← rt.stackCheck 1 "immediate?"
  let (cfaI, rt1) ← rt.pop
  let cleanCfa := Nat.land (intToUsize cfaI) ADDRESS_MASK
  let namePtr := intToUsize (rt1.kernel.get (cleanCfa - 1))
  let immed := Nat.land namePtr IMMEDIATE_FLAG
  rt1.push (if immed = 0 then FALSE else TRUE)

end F3

namespace F3

/-! ## The inner interpreter (src/internals/inner.rs) and EXECUTE
(src/internals/compiler.rs)

`tbl` is the builtin dispatch: `tbl i rt` is the model of
`(self.kernel.get_builtin(i).code)(self)`, and `maxB` is
`Kernel::max_builtin()` (the table's last index).  The mutual recursion
(`i_definition`'s EXEC case calls `f_execute`, whose DEFINITION case calls
`i_definition`) is resolved by the shared fuel. -/

/-- `i_variable`: pop an address, push it back. -/
def iVariable (rt : ForthRuntime) : Except String ForthRuntime := do
  let (val, rt1) ← rt.pop
  rt1.push val

/-- `i_constant`: pop an address, push the cell stored there. -/
def iConstant (rt : ForthRuntime) : Except String ForthRuntime := do
  let (val, rt1) ← rt.pop
  rt1.push (rt1.kernel.get (intToUsize val))

/-- `i_exit`: just `f_r_from` (the popped counter cannot be used here, as
the source comment notes). -/
def iExit (rt : ForthRuntime) : Except String ForthRuntime := fRFrom rt

/-- The call tags of the mutually recursive trio `i_definition` /
its `loop` / `f_execute`: the three are compiled into the single
fuel-structural interpreter `innerRun` below, one case per source
function. -/
inductive InnerCall where
  | loop (pc callDepth : Nat)
  | defn
  | exec

/-- The mutually recursive functions `i_definition` (case `.defn`), its
threaded-code `loop` (case `.loop pc callDepth`) and `f_execute` (case
`.exec`), as one interpreter structurally recursive on the fuel.

`.loop`: one iteration per threaded-code word at the program counter.
`debug_step` — called at the top of each iteration but defined nowhere in
the sources — is modelled from the spec as pure diagnostics with no VM
effect.  The source arm `VARIABLE | ARRAY` is modelled as `VARIABLE` only:
`ARRAY` is imported by inner.rs but defined nowhere in the sources.

`.defn` (`i_definition` ( cfa -- )): pop the start address, push the 0
sentinel onto the return stack, run the loop with call depth 1.

`.exec` (`f_execute` ( cfa -- )): pop the execution token, push `xt + 1`,
read the opcode at the masked token address and dispatch. -/
def innerRun (tbl : Nat → ForthRuntime → ForthRuntime) (maxB : Nat) :
    Nat → InnerCall → ForthRuntime → Except String ForthRuntime
  | 0, _, _ => .error "fuel"
  | fuel + 1, .loop pc callDepth, rt =>
    if pc = 0 ∨ getAbortFlag rt then
      .ok (setReturnPtr rt RET_START)
    else
      let code := if pc < DATA_SIZE then rt.get pc else usizeToInt pc
      if code = BUILTIN then do
        let rt1 := rt.errorMsg "i_definition" "Found BUILTIN???"
        let rt2 ← fRFrom rt1
        let (pcI, rt3) ← rt2.pop
        innerRun tbl maxB fuel (.loop (intToUsize pcI) callDepth) rt3
      else if code = VARIABLE then do
        let rt1 ← rt.push (usizeToInt (pc + 1))
        let rt2 ← fRFrom rt1
        let (pcI, rt3) ← rt2.pop
        innerRun tbl maxB fuel (.loop (intToUsize pcI) callDepth) rt3
      else if code = CONSTANT then do
        let rt1 ← rt.push (rt.kernel.get (pc + 1))
        let rt2 ← fRFrom rt1
        let (pcI, rt3) ← rt2.pop
        innerRun tbl maxB fuel (.loop (intToUsize pcI) callDepth) rt3
      else if code = LITERAL then do
        let rt1 ← rt.push (rt.kernel.get (pc + 1))
        innerRun tbl maxB fuel (.loop (pc + 2) callDepth) rt1
      else if code = STRLIT then do
        let rt1 ← rt.push (rt.kernel.get (pc + 1))
        innerRun tbl maxB fuel (.loop (pc + 2) callDepth) rt1
      else if code = DEFINITION then
        innerRun tbl maxB fuel (.loop (pc + 1) callDepth) rt
      else if code = BRANCH then
        let offset := rt.kernel.get (pc + 1)
        if offset < 0 then
          if offset.natAbs ≤ pc + 1 then
            innerRun tbl maxB fuel (.loop (pc + 1 - offset.natAbs) callDepth) rt
          else .error "program counter underflow"
        else
          innerRun tbl maxB fuel (.loop (pc + 1 + offset.toNat) callDepth) rt
      else if code = BRANCH0 then do
        let (v, rt1) ← rt.pop
        if v = 0 then
          let offset := rt1.kernel.get (pc + 1)
          if offset < 0 then
            if offset.natAbs ≤ pc + 1 then
              innerRun tbl maxB fuel (.loop (pc + 1 - offset.natAbs) callDepth) rt1
            else .error "program counter underflow"
          else
            innerRun tbl maxB fuel (.loop (pc + 1 + offset.toNat) callDepth) rt1
        else
          innerRun tbl maxB fuel (.loop (pc + 2) callDepth) rt1
      else if code = ABORT then
        .ok (fAbort rt)
      else if code = EXIT then do
        let rt1 ← fRFrom rt
        let (pcI, rt2) ← rt1.pop
        innerRun tbl maxB fuel (.loop (intToUsize pcI) (callDepth - 1)) rt2
      else if code = BREAK then do
        let rt1 ← fRFrom rt
        let (pcI, rt2) ← rt1.pop
        innerRun tbl maxB fuel (.loop (intToUsize pcI) callDepth) rt2
      else if code = EXEC then do
        let rt1 ← innerRun tbl maxB fuel .exec rt
        innerRun tbl maxB fuel (.loop (pc + 1) callDepth) rt1
      else
        let cu := intToUsize code
        if Nat.land cu BUILTIN_FLAG ≠ 0 ∧ maskAddr cu ≤ maxB then
          innerRun tbl maxB fuel (.loop (pc + 1) callDepth) (tbl (maskAddr cu) rt)
        else do
          let rt1 ← rt.push (usizeToInt pc + 1)
          let rt2 ← fToR rt1
          innerRun tbl maxB fuel (.loop cu (callDepth + 1)) rt2
  | fuel + 1, .defn, rt => do
    let (pcI, rt1) ← rt.pop
    let pc := intToUsize pcI
    let rt2 ← rt1.push 0
    let rt3 ← fToR rt2
    innerRun tbl maxB fuel (.loop pc 1) rt3
  | fuel + 1, .exec, rt => do
    let _ ← rt.stackCheck 1 "execute"
    let (xt, rt1) ← rt.pop
    let rt2 ← rt1.push (xt + 1)
    let opcode := rt2.kernel.get (maskAddr (intToUsize xt))
    if opcode = BUILTIN then
      .ok (rt2.errorMsg "f_execute" "BUILTIN found")
    else if opcode = VARIABLE then iVariable rt2
    else if opcode = CONSTANT then iConstant rt2
    else if opcode = LITERAL then .ok rt2
    else if opcode = STRLIT then .ok rt2
    else if opcode = DEFINITION then innerRun tbl maxB fuel .defn rt2
    else if opcode = BRANCH then .ok rt2
    else if opcode = BRANCH0 then .ok rt2
    else if opcode = ABORT then .ok rt2
    else if opcode = EXIT then iExit rt2
    else if opcode = BREAK then iExit rt2
    else do
      let (_, rt3) ← rt2.pop
      let cfa := maskAddr (intToUsize (rt3.kernel.get (intToUsize xt)))
      if cfa > maxB then .error "get_builtin: index out of bounds"
      else .ok (tbl cfa rt3)

/-- The `loop` of `i_definition` (src/internals/inner.rs). -/
def idLoop (tbl : Nat → ForthRuntime → ForthRuntime) (maxB : Nat)
    (fuel pc callDepth : Nat) (rt : ForthRuntime) :
    Except String ForthRuntime :=
  innerRun tbl maxB fuel (.loop pc callDepth) rt

/-- `i_definition` ( cfa -- ) (src/internals/inner.rs). -/
def iDefinition (tbl : Nat → ForthRuntime → ForthRuntime) (maxB : Nat)
    (fuel : Nat) (rt : ForthRuntime) : Except String ForthRuntime :=
  innerRun tbl maxB fuel .defn rt

/-- `f_execute` ( cfa -- ) (src/internals/compiler.rs). -/
def fExecute (tbl : Nat → ForthRuntime → ForthRuntime) (maxB : Nat)
    (fuel : Nat) (rt : ForthRuntime) : Except String ForthRuntime :=
  innerRun tbl maxB fuel .exec rt

end F3

namespace F3

/-- `f_d_interpret` ( s -- ): execute the token whose counted-string
address is on the stack; fall back to numeric parse; on an unresolved
token, drop the address and log a warning (no abort). -/
def fDInterpret (tbl : Nat → ForthRuntime → ForthRuntime) (maxB : Nat)
    (fuel : Nat) (rt : ForthRuntime) : Except String ForthRuntime := do
  let _ ← rt.stackCheck 1 "$interpret"
  let tokenAddr := rt.top
  let rt1 ← fFind fuel rt
  let (flag, rt2) ← rt1.pop
  if flag = TRUE then
    fExecute tbl maxB fuel rt2
  else do
    let rt3 ← fNumberQ rt2
    let (flag2, rt4) ← rt3.pop
    if flag2 = TRUE then
      .ok rt4
    else do
      let (_, rt5) ← rt4.pop
      let _word := rt5.kernel.stringGet (intToUsize tokenAddr)
      .ok (rt5.warning "$interpret" "token not recognized")

/-- `f_d_compile` ( s -- ): compile the token whose counted-string address
is on the stack.  A found immediate word is executed via `$interpret` on
PAD; a found ordinary word's code field (or builtin reference) is compiled
by `f_comma`; a number is compiled by `f_literal`; an unresolved token logs
a warning and raises ABORT. -/
def fDCompile (tbl : Nat → ForthRuntime → ForthRuntime) (maxB : Nat)
    (fuel : Nat) (rt : ForthRuntime) : Except String ForthRuntime := do
  let _ ← rt.stackCheck 1 "$compile"
  let rt1 ← fFind fuel rt
  let (flag, rt2) ← rt1.pop
  if flag = TRUE then do
    let cfa := rt2.top
    let rt3 ← fImmediateQ rt2
    let (im, rt4) ← rt3.pop
    if im = TRUE then do
      let rt5 ← rt4.push (rt4.kernel.get rt4.padPtr)
      fDInterpret tbl maxB fuel rt5
    else do
      let indirect := intToUsize (rt4.kernel.get (intToUsize cfa))
      let rt5 ←
        if Nat.land indirect BUILTIN_FLAG ≠ 0 then rt4.push (usizeToInt indirect)
        else rt4.push cfa
      fComma rt5
  else do
    let rt3 ← fNumberQ rt2
    let (flag2, rt4) ← rt3.pop
    if flag2 = TRUE then
      fLiteral rt4
    else do
      let (_, rt5) ← rt4.pop
      let rt6 := rt5.warning "$interpret" "token not recognized"
      .ok (fAbort rt6)

end F3

namespace F3

/-! ## Concrete states used by the theorems below -/

/-- An identity builtin table, for instantiating the dispatch parameter. -/
def tblId : Nat → ForthRuntime → ForthRuntime := fun _ rt => rt

/-- A blank kernel: zeroed heap, blank string arena, both stacks empty,
and the free-string-pointer variable held in heap cell 4, as
`insert_variables` (src/runtime.rs) sets up. -/
def k0 : Kernel :=
  { heap := fun _ => 0, strings := fun _ => 32, stackPtr := STACK_START,
    returnPtr := RET_START, stringPtr := 4 }

/-- A runtime over `k0` whose system-variable addresses are the ones
`insert_variables` (src/runtime.rs) actually produces: HERE at cell 8,
CONTEXT at 12, PAD at 16, BASE at 20, TMP at 24, LAST at 44, the abort
flag at 52, STATE at 56. -/
def rt0 : ForthRuntime :=
  { kernel := k0, herePtr := 8, contextPtr := 12, basePtr := 20, padPtr := 16,
    tmpPtr := 24, lastPtr := 44, statePtr := 56, abortPtr := 52,
    exitFlag := false, msgLog := [] }

/-- `rt0` with HERE = 66 (its value right after `insert_variables`), the
free string pointer at 500 and CONTEXT at 14: a clear abort flag sits in
dictionary cell 52, below HERE. -/
def rtW : ForthRuntime := ((rt0.set 8 66).set 4 500).set 12 14

/-- A kernel whose dictionary free pointer HERE (cell 8) is 100 while the
data stack has grown down to 101: one cell of headroom. -/
def kC2 : Kernel :=
  { heap := fun a => if a = 8 then 100 else 0, strings := fun _ => 32,
    stackPtr := 101, returnPtr := RET_START, stringPtr := 4 }

/-- A runtime whose HERE is 4997 while the data stack has grown down to
4998: emitting one dictionary cell makes the two regions meet. -/
def rtE : ForthRuntime :=
  { rt0 with kernel :=
    { k0 with heap := (fun a => if a = 8 then 4997 else 0), stackPtr := 4998 } }

/-- A code arena for the branch counterexample: a BRANCH at cell 100 with
offset 10, an ABORT at cell 110 (= 100 + 10, the landing cell the claim
predicts) and an EXIT at cell 111 (= 101 + 10, the landing cell the code
actually uses); the return stack already holds the 0 sentinel. -/
def rtB : ForthRuntime :=
  { rt0 with kernel :=
    { k0 with
      heap := (fun a =>
        if a = 100 then BRANCH else if a = 101 then 10
        else if a = 110 then ABORT else if a = 111 then EXIT else 0),
      returnPtr := 9998 } }

/-- A BRANCH0 at cell 200 with offset 5, and a zero on top of the data
stack. -/
def rtB0 : ForthRuntime :=
  { rt0 with kernel :=
    { k0 with
      heap := (fun a => if a = 200 then BRANCH0 else if a = 201 then 5 else 0),
      stackPtr := 4998 } }

/-- A BRANCH0 at cell 200 with offset 5, and the nonzero value 7 on top of
the data stack. -/
def rtB1 : ForthRuntime :=
  { rt0 with kernel :=
    { k0 with
      heap := (fun a =>
        if a = 200 then BRANCH0 else if a = 201 then 5
        else if a = 4998 then 7 else 0),
      stackPtr := 4998 } }

/-- A runtime with exactly one cell on the data stack. -/
def rtU : ForthRuntime :=
  { rt0 with kernel := { k0 with stackPtr := 4998 } }

/-- A runtime with two cells on the data stack: 3 below 5. -/
def rtT : ForthRuntime :=
  { rt0 with kernel :=
    { k0 with
      heap := (fun a => if a = 4997 then 5 else if a = 4998 then 3 else 0),
      stackPtr := 4997 } }

/-- The name "sq", as bytes. -/
def nameSq : List Nat := [115, 113]

/-- `rtW` with the token "sq" written as a counted string at 300, far below
the free string pointer. -/
def rtF : ForthRuntime := { rtW with kernel := rtW.kernel.stringSave nameSq 300 }

/-- The unresolvable token "foo", as bytes. -/
def nameFoo : List Nat := [102, 111, 111]

/-- A runtime holding the address of the counted string "foo" on the data
stack, with an empty dictionary chain (CONTEXT cell = 1, so the `f_find`
walk starts at link 0): the token resolves neither as a word nor as a
number. -/
def rtG : ForthRuntime :=
  { rt0 with kernel :=
    { (k0.stringSave nameFoo 300) with
      heap := (fun a =>
        if a = 12 then 1 else if a = 4998 then 300 else if a = 8 then 66 else 0),
      stackPtr := 4998 } }

/-- A runtime holding the address of the counted string "123" on the data
stack. -/
def rtN : ForthRuntime :=
  { rt0 with kernel :=
    { (k0.stringSave [49, 50, 51] 300) with
      heap := (fun a => if a = 4998 then 300 else 0), stackPtr := 4998 } }

/-- A runtime with HERE = 66 and the integer 77 on the data stack. -/
def rtL : ForthRuntime :=
  { rt0 with kernel :=
    { k0 with
      heap := (fun a => if a = 8 then 66 else if a = 4998 then 77 else 0),
      stackPtr := 4998 } }

/-- A kernel whose free string pointer (heap cell 4) is 500. -/
def k9 : Kernel := { k0 with heap := fun a => if a = 4 then 500 else 0 }

end F3

namespace F3

/-! # Theorems

Supporting lemmas about the casts, the heap and the string arena come
first; then one theorem (with witness or counterexample as required) per
claim of the specification. -/

theorem intToUsize_ofNat (n : Nat) (h : n < 2 ^ 64) : intToUsize (n : Int) = n := by
  unfold intToUsize
  rw [Int.emod_eq_of_lt (by positivity) (by exact_mod_cast h)]
  simp

theorem usizeToInt_small (n : Nat) (h : n < 2 ^ 63) : usizeToInt n = (n : Int) := by
  unfold usizeToInt
  rw [Nat.mod_eq_of_lt (lt_trans h (by norm_num))]
  rw [if_pos h]

theorem intToUsize_usizeToInt (n : Nat) (h : n < 2 ^ 63) :
    intToUsize (usizeToInt n) = n := by
  rw [usizeToInt_small n h, intToUsize_ofNat n (lt_trans h (by norm_num))]

theorem maskAddr_eq_mod (x : Nat) : maskAddr x = x % 2 ^ 56 := by
  have h : ADDRESS_MASK = 2 ^ 56 - 1 := by norm_num [ADDRESS_MASK]
  rw [maskAddr, h]
  exact Nat.and_pow_two_sub_one_eq_mod x 56

theorem maskAddr_small (x : Nat) (h : x < 2 ^ 56) : maskAddr x = x := by
  rw [maskAddr_eq_mod]; exact Nat.mod_eq_of_lt h

theorem Kernel.get_set_self (k : Kernel) (a : Nat) (v : Int) :
    (k.set a v).get a = v := by
  simp [Kernel.set, Kernel.get]

theorem Kernel.get_set_of_ne (k : Kernel) {b a : Nat} (v : Int) (h : b ≠ a) :
    (k.set a v).get b = k.get b := by
  simp [Kernel.set, Kernel.get, h]

theorem except_bind_error {α β : Type} (e : String) (f : α → Except String β) :
    (Except.error e : Except String α) >>= f = Except.error e := rfl

theorem except_bind_ok {α β : Type} (a : α) (f : α → Except String β) :
    (Except.ok a : Except String α) >>= f = f a := rfl

theorem except_map_error {α β : Type} (e : String) (f : α → β) :
    (Except.error e : Except String α).map f = Except.error e := rfl

theorem except_map_ok {α β : Type} (a : α) (f : α → β) :
    (Except.ok a : Except String α).map f = Except.ok (f a) := rfl

/-! ## C1 — abort as a per-line recoverable reset -/

/-- C1 (corrected form): from every VM state — in particular one whose
abort flag is already set — `f_abort` resets the data stack pointer to
`STACK_START` (empty stack), the return stack pointer to `RET_START`, and
sets the global abort flag; every heap cell below the dictionary free
pointer other than the abort-flag cell itself is unchanged, and the string
arena is untouched.  (The abort-flag cell is itself a dictionary cell below
HERE, so it must be excepted — see the counterexample.) -/
theorem c1_abort_per_line_reset (rt : ForthRuntime) :
    (fAbort rt).kernel.stackPtr = STACK_START ∧
    (fAbort rt).kernel.returnPtr = RET_START ∧
    getAbortFlag (fAbort rt) = true ∧
    (fAbort rt).kernel.get rt.abortPtr = TRUE ∧
    (fAbort rt).kernel.strings = rt.kernel.strings ∧
    (∀ a, a < here rt → a ≠ rt.abortPtr →
      (fAbort rt).kernel.get a = rt.kernel.get a) := by
  refine ⟨rfl, rfl, ?_, ?_, rfl, ?_⟩
  · simp [fAbort, setAbortFlag, getAbortFlag, fClear, ForthRuntime.warning,
      ForthRuntime.set, Kernel.set, Kernel.get, Kernel.reset, TRUE, FALSE]
  · simp [fAbort, setAbortFlag, fClear, ForthRuntime.warning,
      ForthRuntime.set, Kernel.set, Kernel.get, Kernel.reset, TRUE]
  · intro a _ hne
    simp [fAbort, setAbortFlag, fClear, ForthRuntime.warning,
      ForthRuntime.set, Kernel.set, Kernel.get, Kernel.reset, hne]

theorem c1_abort_per_line_reset_witness :
    getAbortFlag (fAbort rtW) = true ∧
    (fAbort rtW).kernel.get 5 = rtW.kernel.get 5 := by
  refine ⟨(c1_abort_per_line_reset rtW).2.2.1, ?_⟩
  exact (c1_abort_per_line_reset rtW).2.2.2.2.2 5 (by decide) (by decide)

/-- C1 counterexample: in `rtW` the abort flag (cell 52) is clear and HERE
is 66, so cell 52 lies in the dictionary region; `f_abort` changes it.
The claim that `f_abort` leaves all heap cells below the dictionary free
pointer unchanged is therefore false as stated. -/
theorem c1_abort_changes_dictionary_cell :
    rtW.abortPtr = 52 ∧ (52 : Nat) < here rtW ∧
    ¬ ((fAbort rtW).kernel.get 52 = rtW.kernel.get 52) := by decide

/-! ## C2 — the HERE < stack-pointer invariant is not enforced -/

/-- C2 (the claim is right, the code is wrong): evaluating the code at the
failing inputs.  `Kernel::push` from a state with HERE = 100 and stack
pointer 101 succeeds (its only guard is `stack_ptr <= 0`) and yields stack
pointer 100 = HERE: the regions meet and nothing is detected.  Likewise
`emit_cell` raises HERE from 4997 to 4998 = the stack pointer with no
check at all. -/
theorem c2_overlap_not_detected :
    (intToUsize (kC2.get 8) = 100 ∧
     (kC2.push 42).map Kernel.stackPtr = .ok 100) ∧
    (intToUsize (rtE.get rtE.herePtr) = 4997 ∧ rtE.kernel.stackPtr = 4998 ∧
     intToUsize ((emitCell rtE 7).get rtE.herePtr) = 4998 ∧
     (emitCell rtE 7).kernel.stackPtr = 4998) :=
  ⟨⟨by decide, rfl⟩, by decide, rfl, by decide, rfl⟩

/-! ## C7 — stack underflow always takes the (panic) error path -/

/-- C7 (corrected form): invoking a builtin that needs `k` data-stack items
in a state with fewer than `k` present always takes the underflow error
path: the `stack_check` guard (or the guard inside `pop2_push1` /
`pop1_push1`) raises the underflow panic before any pop or heap read, so
no heap cell outside the stack region is read and no VM state results —
in particular the global abort flag is never set by this path (the panic
is a host-level unwind, not the VM's ABORT). -/
theorem c7_underflow_always_detected :
    (∀ rt : ForthRuntime, STACK_START - rt.kernel.stackPtr < 2 →
      fPlus rt = .error "+: Stack underflow") ∧
    (∀ (rt : ForthRuntime) (word : String) (f : Int → Int → Int),
      STACK_START - rt.kernel.stackPtr < 2 →
      pop2Push1 word f rt = .error "pop2_push1: Stack underflow") ∧
    (∀ (rt : ForthRuntime) (word : String) (f : Int → Int),
      STACK_START - rt.kernel.stackPtr < 1 →
      pop1Push1 word f rt = .error (word ++ ": Stack underflow")) ∧
    (∀ rt : ForthRuntime, STACK_START - rt.kernel.stackPtr < 1 →
      fDup rt = .error "dup: Stack underflow") := by
  refine ⟨?_, ?_, ?_, ?_⟩
  · intro rt h
    simp [fPlus, ForthRuntime.stackCheck, Kernel.stackCheck, h, except_bind_error, except_map_error]
  · intro rt word f h
    simp [pop2Push1, Kernel.pop2Push1, Kernel.stackCheck, h, except_bind_error, except_map_error]
  · intro rt word f h
    simp [pop1Push1, Kernel.pop1Push1, Kernel.stackCheck, h, except_bind_error, except_map_error]
  · intro rt h
    simp [fDup, ForthRuntime.stackCheck, Kernel.stackCheck, h, except_bind_error, except_map_error]

theorem c7_underflow_always_detected_witness :
    fPlus rtU = .error "+: Stack underflow" ∧
    pop2Push1 "-" (fun a b => a - b) rtU = .error "pop2_push1: Stack underflow" ∧
    pop1Push1 "0=" (fun a => if a = 0 then -1 else 0) rt0 =
      .error "0=: Stack underflow" ∧
    fDup rt0 = .error "dup: Stack underflow" := by
  refine ⟨c7_underflow_always_detected.1 rtU (by decide),
    c7_underflow_always_detected.2.1 rtU "-" _ (by decide),
    c7_underflow_always_detected.2.2.1 rt0 "0=" _ (by decide),
    c7_underflow_always_detected.2.2.2 rt0 (by decide)⟩

/-- C7 counterexample: with one item on the stack, `+` does not produce
any resulting VM state with the abort flag set (no recoverable ABORT): it
evaluates to the underflow panic. -/
theorem c7_underflow_is_panic_not_abort :
    STACK_START - rtU.kernel.stackPtr = 1 ∧
    fPlus rtU = .error "+: Stack underflow" := by
  exact ⟨by decide, rfl⟩

end F3

namespace F3

/-! ## C10 — comparison builtins push canonical truth values -/

theorem pop2Push1_ok (word : String) (f : Int → Int → Int) (rt : ForthRuntime)
    (h : rt.kernel.stackPtr + 2 ≤ STACK_START) :
    pop2Push1 word f rt =
      .ok { rt with kernel :=
        { rt.kernel with
          stackPtr := rt.kernel.stackPtr + 1,
          heap := fun a => if a = rt.kernel.stackPtr + 1 then
            f (rt.kernel.peek 1) (rt.kernel.top) else rt.kernel.heap a } } := by
  have h1 : ¬ (STACK_START - rt.kernel.stackPtr < 2) := by omega
  have h2 : ¬ (rt.kernel.stackPtr ≥ STACK_START) := by omega
  have h3 : ¬ (rt.kernel.stackPtr + 1 ≥ STACK_START) := by omega
  have h4 : ¬ (rt.kernel.stackPtr + 2 ≤ 0) := by omega
  simp [pop2Push1, Kernel.pop2Push1, Kernel.stackCheck, Kernel.pop, Kernel.push,
    Kernel.set, Kernel.peek, Kernel.top,
    h1, h2, h3, h4, except_bind_error, except_bind_ok, except_map_ok]

theorem pop1Push1_ok (word : String) (f : Int → Int) (rt : ForthRuntime)
    (h : rt.kernel.stackPtr + 1 ≤ STACK_START) :
    pop1Push1 word f rt =
      .ok { rt with kernel :=
        { rt.kernel with
          heap := fun a => if a = rt.kernel.stackPtr then
            f (rt.kernel.top) else rt.kernel.heap a } } := by
  have h1 : ¬ (STACK_START - rt.kernel.stackPtr < 1) := by omega
  have h2 : ¬ (rt.kernel.stackPtr ≥ STACK_START) := by omega
  have h4 : ¬ (rt.kernel.stackPtr + 1 ≤ 0) := by omega
  simp [pop1Push1, Kernel.pop1Push1, Kernel.stackCheck, Kernel.pop, Kernel.push,
    Kernel.set, Kernel.top,
    h1, h2, h4, except_bind_error, except_bind_ok, except_map_ok]

/-- C10: each comparison builtin `<`, `=`, `0=`, `0<`, when its stack
precondition is met, succeeds and leaves exactly one of the two canonical
truth values, TRUE = -1 or FALSE = 0, on top of the stack. -/
theorem c10_comparisons_canonical :
    (∀ rt : ForthRuntime, rt.kernel.stackPtr + 2 ≤ STACK_START →
      ∃ rt2, fLess rt = .ok rt2 ∧ (rt2.top = TRUE ∨ rt2.top = FALSE) ∧
        rt2.kernel.stackPtr = rt.kernel.stackPtr + 1) ∧
    (∀ rt : ForthRuntime, rt.kernel.stackPtr + 2 ≤ STACK_START →
      ∃ rt2, fEqual rt = .ok rt2 ∧ (rt2.top = TRUE ∨ rt2.top = FALSE) ∧
        rt2.kernel.stackPtr = rt.kernel.stackPtr + 1) ∧
    (∀ rt : ForthRuntime, rt.kernel.stackPtr + 1 ≤ STACK_START →
      ∃ rt2, f0Equal rt = .ok rt2 ∧ (rt2.top = TRUE ∨ rt2.top = FALSE) ∧
        rt2.kernel.stackPtr = rt.kernel.stackPtr) ∧
    (∀ rt : ForthRuntime, rt.kernel.stackPtr + 1 ≤ STACK_START →
      ∃ rt2, f0Less rt = .ok rt2 ∧ (rt2.top = TRUE ∨ rt2.top = FALSE) ∧
        rt2.kernel.stackPtr = rt.kernel.stackPtr) := by
  refine ⟨?_, ?_, ?_, ?_⟩
  · intro rt h
    refine ⟨_, pop2Push1_ok "<" _ rt h, ?_, rfl⟩
    simp only [ForthRuntime.top, Kernel.top, TRUE, FALSE]
    split_ifs <;> simp
  · intro rt h
    refine ⟨_, pop2Push1_ok "=" _ rt h, ?_, rfl⟩
    simp only [ForthRuntime.top, Kernel.top, TRUE, FALSE]
    split_ifs <;> simp
  · intro rt h
    refine ⟨_, pop1Push1_ok "0=" _ rt h, ?_, rfl⟩
    simp only [ForthRuntime.top, Kernel.top, TRUE, FALSE]
    split_ifs <;> simp
  · intro rt h
    refine ⟨_, pop1Push1_ok "0<" _ rt h, ?_, rfl⟩
    simp only [ForthRuntime.top, Kernel.top, TRUE, FALSE]
    split_ifs <;> simp

theorem c10_comparisons_canonical_witness :
    (∃ rt2, fLess rtT = .ok rt2 ∧ (rt2.top = TRUE ∨ rt2.top = FALSE) ∧
      rt2.kernel.stackPtr = rtT.kernel.stackPtr + 1) ∧
    (∃ rt2, fEqual rtT = .ok rt2 ∧ (rt2.top = TRUE ∨ rt2.top = FALSE) ∧
      rt2.kernel.stackPtr = rtT.kernel.stackPtr + 1) ∧
    (∃ rt2, f0Equal rtU = .ok rt2 ∧ (rt2.top = TRUE ∨ rt2.top = FALSE) ∧
      rt2.kernel.stackPtr = rtU.kernel.stackPtr) ∧
    (∃ rt2, f0Less rtU = .ok rt2 ∧ (rt2.top = TRUE ∨ rt2.top = FALSE) ∧
      rt2.kernel.stackPtr = rtU.kernel.stackPtr) :=
  ⟨c10_comparisons_canonical.1 rtT (by decide),
   c10_comparisons_canonical.2.1 rtT (by decide),
   c10_comparisons_canonical.2.2.1 rtU (by decide),
   c10_comparisons_canonical.2.2.2 rtU (by decide)⟩

end F3

namespace F3

/-! ## C5 — BRANCH / BRANCH0 in the inner interpreter -/

/-- C5 (corrected form): in `i_definition`, a BRANCH cell at `pc` jumps to
`(pc + 1) + offset` — the signed offset in the next cell is added to the
position of the OFFSET cell (one past the branch cell), not to the branch
cell's own position; a BRANCH0 cell pops a value and takes exactly the
same jump when that value is zero, otherwise it skips the offset cell and
continues at `pc + 2`. -/
theorem c5_branch_adds_offset_to_next_cell :
    (∀ tbl maxB fuel pc d (rt : ForthRuntime) (target : Nat),
      pc ≠ 0 → getAbortFlag rt = false → pc < DATA_SIZE →
      rt.kernel.get pc = BRANCH →
      (target : Int) = (pc : Int) + 1 + rt.kernel.get (pc + 1) →
      idLoop tbl maxB (fuel + 1) pc d rt = idLoop tbl maxB fuel target d rt) ∧
    (∀ tbl maxB fuel pc d (rt : ForthRuntime) (target : Nat),
      pc ≠ 0 → getAbortFlag rt = false → pc < DATA_SIZE →
      rt.kernel.get pc = BRANCH0 →
      rt.kernel.stackPtr < STACK_START → rt.kernel.top = 0 →
      (target : Int) = (pc : Int) + 1 + rt.kernel.get (pc + 1) →
      ∃ rt1, rt.pop = .ok (0, rt1) ∧
        idLoop tbl maxB (fuel + 1) pc d rt = idLoop tbl maxB fuel target d rt1) ∧
    (∀ tbl maxB fuel pc d (rt : ForthRuntime),
      pc ≠ 0 → getAbortFlag rt = false → pc < DATA_SIZE →
      rt.kernel.get pc = BRANCH0 →
      rt.kernel.stackPtr < STACK_START → rt.kernel.top ≠ 0 →
      ∃ rt1, rt.pop = .ok (rt.kernel.top, rt1) ∧
        idLoop tbl maxB (fuel + 1) pc d rt = idLoop tbl maxB fuel (pc + 2) d rt1) := by
  refine ⟨?_, ?_, ?_⟩
  · intro tbl maxB fuel pc d rt target hpc habort hlt hcode htarget
    simp only [idLoop]
    rw [innerRun]
    simp only [hpc, habort, hlt, ForthRuntime.get, if_true, if_false, ite_true,
      ite_false, or_self, or_false, false_or]
    rw [hcode]
    norm_num [BUILTIN, VARIABLE, CONSTANT, LITERAL, STRLIT, DEFINITION, BRANCH,
      BRANCH0, ABORT, EXIT, BREAK, EXEC]
    rcases lt_or_ge (rt.kernel.get (pc + 1)) 0 with hneg | hpos
    · rw [if_pos hneg, if_pos (by omega)]
      have ht : pc + 1 - (rt.kernel.get (pc + 1)).natAbs = target := by omega
      rw [ht]
    · rw [if_neg (by omega)]
      have ht : pc + 1 + (rt.kernel.get (pc + 1)).toNat = target := by omega
      rw [ht]
  · intro tbl maxB fuel pc d rt target hpc habort hlt hcode hsp htop htarget
    have hpop : rt.pop =
        .ok (0, { rt with kernel := { rt.kernel with stackPtr := rt.kernel.stackPtr + 1 } }) := by
      rw [ForthRuntime.pop, Kernel.pop, if_neg (by omega)]
      rw [show rt.kernel.heap rt.kernel.stackPtr = (0 : Int) from htop]
      rfl
    refine ⟨_, hpop, ?_⟩
    simp only [idLoop]
    rw [innerRun]
    simp only [hpc, habort, hlt, ForthRuntime.get, if_true, if_false, ite_true,
      ite_false, or_self, or_false, false_or]
    rw [hcode]
    norm_num [BUILTIN, VARIABLE, CONSTANT, LITERAL, STRLIT, DEFINITION, BRANCH,
      BRANCH0, ABORT, EXIT, BREAK, EXEC]
    rw [hpop]
    simp only [except_bind_ok, ite_true, ite_false, Kernel.get]
    simp only [Kernel.get] at htarget
    rcases lt_or_ge (rt.kernel.heap (pc + 1)) 0 with hneg | hpos
    · rw [if_pos hneg, if_pos (by omega)]
      have ht : pc + 1 - (rt.kernel.heap (pc + 1)).natAbs = target := by omega
      rw [ht]
    · rw [if_neg (by omega)]
      have ht : pc + 1 + (rt.kernel.heap (pc + 1)).toNat = target := by omega
      rw [ht]
  · intro tbl maxB fuel pc d rt hpc habort hlt hcode hsp htop
    have hpop : rt.pop =
        .ok (rt.kernel.top, { rt with kernel := { rt.kernel with stackPtr := rt.kernel.stackPtr + 1 } }) := by
      rw [ForthRuntime.pop, Kernel.pop, if_neg (by omega)]
      rfl
    refine ⟨_, hpop, ?_⟩
    simp only [idLoop]
    rw [innerRun]
    simp only [hpc, habort, hlt, ForthRuntime.get, if_true, if_false, ite_true,
      ite_false, or_self, or_false, false_or]
    rw [hcode]
    norm_num [BUILTIN, VARIABLE, CONSTANT, LITERAL, STRLIT, DEFINITION, BRANCH,
      BRANCH0, ABORT, EXIT, BREAK, EXEC]
    rw [hpop]
    simp only [except_bind_ok]
    rw [if_neg htop]

end F3

namespace F3

theorem c5_branch_adds_offset_to_next_cell_witness :
    idLoop tblId 0 4 100 1 rtB = idLoop tblId 0 3 111 1 rtB ∧
    (∃ rt1, rtB0.pop = .ok (0, rt1) ∧
      idLoop tblId 0 4 200 1 rtB0 = idLoop tblId 0 3 206 1 rt1) ∧
    (∃ rt1, rtB1.pop = .ok (rtB1.kernel.top, rt1) ∧
      idLoop tblId 0 4 200 1 rtB1 = idLoop tblId 0 3 202 1 rt1) := by
  refine ⟨?_, ?_, ?_⟩
  · exact c5_branch_adds_offset_to_next_cell.1 tblId 0 3 100 1 rtB 111
      (by decide) (by decide) (by decide) (by decide) (by decide)
  · exact c5_branch_adds_offset_to_next_cell.2.1 tblId 0 3 200 1 rtB0 206
      (by decide) (by decide) (by decide) (by decide) (by decide) (by decide)
      (by decide)
  · exact c5_branch_adds_offset_to_next_cell.2.2 tblId 0 3 200 1 rtB1
      (by decide) (by decide) (by decide) (by decide) (by decide) (by decide)

/-- C5 counterexample: in `rtB` a BRANCH sits at cell 100 with offset 10;
the landing cell the claim predicts, 100 + 10 = 110, holds ABORT (which
would set the abort flag), while cell 111 = (100 + 1) + 10 holds EXIT.
Running the inner interpreter terminates cleanly with the abort flag
clear — so execution resumed at 111, not at 110; starting the interpreter
directly at 110 does set the flag. -/
theorem c5_claimed_target_not_taken :
    rtB.kernel.get 100 = BRANCH ∧ rtB.kernel.get 101 = 10 ∧
    rtB.kernel.get (100 + 10) = ABORT ∧ rtB.kernel.get 111 = EXIT ∧
    (idLoop tblId 0 5 100 1 rtB).map getAbortFlag = .ok false ∧
    (idLoop tblId 0 5 110 1 rtB).map getAbortFlag = .ok true := by
  refine ⟨rfl, rfl, rfl, rfl, ?_, ?_⟩ <;> rfl

end F3

namespace F3

/-! ## Helper lemmas: successful pops and pushes -/

theorem ForthRuntime.pop_ok (rt : ForthRuntime)
    (h : rt.kernel.stackPtr < STACK_START) :
    rt.pop = .ok (rt.kernel.top,
      { rt with kernel := { rt.kernel with stackPtr := rt.kernel.stackPtr + 1 } }) := by
  rw [ForthRuntime.pop, Kernel.pop, if_neg (by omega)]
  rfl

theorem ForthRuntime.push_ok (rt : ForthRuntime) (v : Int)
    (h : 0 < rt.kernel.stackPtr) :
    rt.push v = .ok { rt with kernel :=
      { rt.kernel with
        stackPtr := rt.kernel.stackPtr - 1,
        heap := fun a => if a = rt.kernel.stackPtr - 1 then v else rt.kernel.heap a } } := by
  rw [ForthRuntime.push, Kernel.push, if_neg (by omega)]
  rfl

theorem push_push_ok (rt : ForthRuntime) (v w : Int)
    (h : 1 < rt.kernel.stackPtr) :
    ∃ rt2, (do
        let r1 ← rt.push v
        r1.push w) = .ok rt2 ∧
      rt2.kernel.stackPtr = rt.kernel.stackPtr - 2 ∧
      rt2.top = w ∧ rt2.kernel.peek 1 = v ∧
      rt2.kernel.returnPtr = rt.kernel.returnPtr ∧
      rt2.kernel.strings = rt.kernel.strings ∧
      rt2.msgLog = rt.msgLog ∧
      rt2.herePtr = rt.herePtr ∧ rt2.contextPtr = rt.contextPtr ∧
      rt2.basePtr = rt.basePtr ∧ rt2.abortPtr = rt.abortPtr ∧
      (∀ a, a ≠ rt.kernel.stackPtr - 1 → a ≠ rt.kernel.stackPtr - 2 →
        rt2.kernel.get a = rt.kernel.get a) := by
  rw [ForthRuntime.push_ok rt v (by omega)]
  simp only [except_bind_ok]
  rw [ForthRuntime.push_ok _ w (by show 0 < rt.kernel.stackPtr - 1; omega)]
  have e1 : rt.kernel.stackPtr - 1 - 1 = rt.kernel.stackPtr - 2 := by omega
  have e2 : rt.kernel.stackPtr - 2 + 1 = rt.kernel.stackPtr - 1 := by omega
  have e3 : rt.kernel.stackPtr - 1 ≠ rt.kernel.stackPtr - 2 := by omega
  refine ⟨_, rfl, by simp [e1], ?_, ?_, rfl, rfl, rfl, rfl, rfl, rfl, rfl, ?_⟩
  · simp [ForthRuntime.top, Kernel.top, e1]
  · simp [Kernel.peek, e1, e2, e3]
  · intro a ha1 ha2
    simp [Kernel.get, e1, ha1, ha2]

/-! ## C6 — `number?` is a base-10 signed parse, independent of BASE -/

/-- C6: `number?` pops a string address `s` and leaves `(n, TRUE)` exactly
when the counted string at `s` parses as a base-10 signed 64-bit integer
`n`, and `(s, FALSE)` otherwise; and its observable result (the flag, the
pushed value, the stack shape) is the same whatever value is stored in the
numeric base variable — the base cell is never consulted. -/
theorem c6_number_parse_base10_only :
    (∀ rt : ForthRuntime,
      rt.kernel.stackPtr < STACK_START → 0 < rt.kernel.stackPtr →
      ∃ rt2, fNumberQ rt = .ok rt2 ∧
        rt2.kernel.stackPtr = rt.kernel.stackPtr - 1 ∧
        ((∃ n, parseI64 (rt.kernel.stringGet (intToUsize rt.top)) = some n ∧
            rt2.top = TRUE ∧ rt2.kernel.peek 1 = n) ∨
          (parseI64 (rt.kernel.stringGet (intToUsize rt.top)) = none ∧
            rt2.top = FALSE ∧ rt2.kernel.peek 1 = rt.top))) ∧
    (∀ (rt : ForthRuntime) (b : Int),
      rt.kernel.stackPtr < STACK_START → 0 < rt.kernel.stackPtr →
      rt.basePtr ≠ rt.kernel.stackPtr → rt.basePtr + 1 ≠ rt.kernel.stackPtr →
      (fNumberQ (rt.set rt.basePtr b)).map
          (fun r => (r.kernel.stackPtr, r.top, r.kernel.peek 1)) =
        (fNumberQ rt).map
          (fun r => (r.kernel.stackPtr, r.top, r.kernel.peek 1))) := by
  have main : ∀ rt : ForthRuntime,
      rt.kernel.stackPtr < STACK_START → 0 < rt.kernel.stackPtr →
      ∃ rt2, fNumberQ rt = .ok rt2 ∧
        rt2.kernel.stackPtr = rt.kernel.stackPtr - 1 ∧
        ((∃ n, parseI64 (rt.kernel.stringGet (intToUsize rt.top)) = some n ∧
            rt2.top = TRUE ∧ rt2.kernel.peek 1 = n) ∨
          (parseI64 (rt.kernel.stringGet (intToUsize rt.top)) = none ∧
            rt2.top = FALSE ∧ rt2.kernel.peek 1 = rt.top)) := by
    intro rt hsp hsp0
    rw [fNumberQ, ForthRuntime.pop_ok rt hsp]
    simp only [except_bind_ok]
    have hL : ∀ x, (({ rt with kernel :=
        { rt.kernel with stackPtr := rt.kernel.stackPtr + 1 } } : ForthRuntime)).kernel.stringGet x
        = rt.kernel.stringGet x := fun _ => rfl
    have hsp1 : (1 : Nat) <
        (({ rt with kernel :=
          { rt.kernel with stackPtr := rt.kernel.stackPtr + 1 } } : ForthRuntime)).kernel.stackPtr := by
      show 1 < rt.kernel.stackPtr + 1
      omega
    rcases hparse : parseI64 (rt.kernel.stringGet (intToUsize rt.kernel.top)) with _ | n
    · simp only [hL, uIsInteger, hparse, Option.isSome_none, Bool.false_eq_true, if_false]
      obtain ⟨rt2, he, h1, h2, h3, -, -, -, -, -, -, -, -⟩ :=
        push_push_ok ({ rt with kernel :=
          { rt.kernel with stackPtr := rt.kernel.stackPtr + 1 } }) rt.kernel.top FALSE hsp1
      refine ⟨rt2, he, ?_, Or.inr ⟨hparse, h2, h3⟩⟩
      rw [h1]
      show rt.kernel.stackPtr + 1 - 2 = rt.kernel.stackPtr - 1
      omega
    · simp only [hL, uIsInteger, hparse, Option.isSome_some, if_true]
      obtain ⟨rt2n, hen, h1n, h2n, h3n, -, -, -, -, -, -, -, -⟩ :=
        push_push_ok ({ rt with kernel :=
          { rt.kernel with stackPtr := rt.kernel.stackPtr + 1 } }) n TRUE hsp1
      refine ⟨rt2n, hen, ?_, Or.inl ⟨n, hparse, h2n, h3n⟩⟩
      rw [h1n]
      show rt.kernel.stackPtr + 1 - 2 = rt.kernel.stackPtr - 1
      omega
  constructor
  · exact main
  · intro rt b hsp hsp0 hb1 hb2
    have hsp' : (rt.set rt.basePtr b).kernel.stackPtr < STACK_START := hsp
    have hsp0' : 0 < (rt.set rt.basePtr b).kernel.stackPtr := hsp0
    obtain ⟨r1, he1, hs1, hcase1⟩ := main (rt.set rt.basePtr b) hsp' hsp0'
    obtain ⟨r2, he2, hs2, hcase2⟩ := main rt hsp hsp0
    have htop : (rt.set rt.basePtr b).top = rt.top := by
      have hne : rt.kernel.stackPtr ≠ rt.basePtr := fun he => hb1 he.symm
      simp [ForthRuntime.set, ForthRuntime.top, Kernel.set, Kernel.top, hne]
    have hstr : ∀ x, (rt.set rt.basePtr b).kernel.stringGet x = rt.kernel.stringGet x :=
      fun _ => rfl
    rw [he1, he2, except_map_ok, except_map_ok]
    rw [htop, hstr] at hcase1
    rcases hcase1 with ⟨n1, hp1, ht1, hk1⟩ | ⟨hp1, ht1, hk1⟩ <;>
      rcases hcase2 with ⟨n2, hp2, ht2, hk2⟩ | ⟨hp2, ht2, hk2⟩
    · rw [hp1] at hp2
      obtain rfl : n1 = n2 := by injection hp2
      rw [hs1, hs2, ht1, ht2, hk1, hk2]
      rfl
    · rw [hp1] at hp2
      exact absurd hp2 (by simp)
    · rw [hp1] at hp2
      exact absurd hp2 (by simp)
    · rw [hs1, hs2, ht1, ht2, hk1, hk2]
      rfl

end F3

namespace F3

theorem c6_number_parse_base10_only_witness :
    (∃ rt2, fNumberQ rtN = .ok rt2 ∧
      rt2.kernel.stackPtr = rtN.kernel.stackPtr - 1 ∧
      ((∃ n, parseI64 (rtN.kernel.stringGet (intToUsize rtN.top)) = some n ∧
          rt2.top = TRUE ∧ rt2.kernel.peek 1 = n) ∨
        (parseI64 (rtN.kernel.stringGet (intToUsize rtN.top)) = none ∧
          rt2.top = FALSE ∧ rt2.kernel.peek 1 = rtN.top))) ∧
    (fNumberQ (rtN.set rtN.basePtr 16)).map
        (fun r => (r.kernel.stackPtr, r.top, r.kernel.peek 1)) =
      (fNumberQ rtN).map (fun r => (r.kernel.stackPtr, r.top, r.kernel.peek 1)) :=
  ⟨c6_number_parse_base10_only.1 rtN (by decide) (by decide),
   c6_number_parse_base10_only.2 rtN 16 (by decide) (by decide) (by decide) (by decide)⟩

/-! ## C9 — counted-string round trip through the string arena -/

theorem writeBytes_out (s : Nat → Nat) (bs : List Nat) (addr a : Nat)
    (h : a < addr ∨ addr + bs.length ≤ a) : writeBytes s addr bs a = s a := by
  induction bs generalizing s addr with
  | nil => rfl
  | cons b rest ih =>
    simp only [writeBytes]
    rw [ih]
    · simp only [List.length_cons] at h
      have hne : a ≠ addr := by omega
      simp [hne]
    · simp only [List.length_cons] at h
      omega

theorem writeBytes_in (s : Nat → Nat) (bs : List Nat) (addr i : Nat)
    (h : i < bs.length) :
    writeBytes s addr bs (addr + i) = bs.get ⟨i, h⟩ % 256 := by
  induction bs generalizing s addr i with
  | nil => simp at h
  | cons b rest ih =>
    simp only [writeBytes]
    rcases Nat.eq_zero_or_pos i with rfl | hi
    · rw [writeBytes_out]
      · simp
      · left
        omega
    · have h' : i - 1 < rest.length := by simp at h; omega
      have e : addr + i = (addr + 1) + (i - 1) := by omega
      rw [e, ih _ _ _ h']
      congr 1
      rcases i with _ | j
      · omega
      · simp

theorem list_eq_of_get (f : Nat → Nat) (s : List Nat)
    (h : ∀ i (hi : i < s.length), f i = s.get ⟨i, hi⟩) :
    (List.range s.length).map f = s := by
  apply List.ext_get
  · simp
  · intro i h1 h2
    simp only [List.get_eq_getElem, List.getElem_map, List.getElem_range]
    exact h _ h2

/-- `string_new` characterized cell by cell: the count byte at the returned
address, the payload bytes after it, everything else in the arena
untouched, and the free-string pointer cell advanced past the string. -/
theorem stringNew_spec (k : Kernel) (s : List Nat) (P : Nat)
    (hPe : intToUsize (k.heap k.stringPtr) = P)
    (hfit : P + s.length < STRING_SIZE) :
    ∃ k2, k.stringNew s = .ok (P, k2) ∧
      k2.strings P = s.length % 256 ∧
      (∀ i (hi : i < s.length), k2.strings (P + 1 + i) = s.get ⟨i, hi⟩ % 256) ∧
      (∀ a, a < P → k2.strings a = k.strings a) ∧
      (∀ a, P + s.length < a → k2.strings a = k.strings a) ∧
      k2.heap k.stringPtr = ((P + 1 + s.length : Nat) : Int) ∧
      (∀ a, a ≠ k.stringPtr → k2.heap a = k.heap a) ∧
      k2.stackPtr = k.stackPtr ∧ k2.returnPtr = k.returnPtr ∧
      k2.stringPtr = k.stringPtr := by
  rw [Kernel.stringNew, hPe, if_neg (by omega)]
  refine ⟨_, rfl, ?_, ?_, ?_, ?_, ?_, ?_, rfl, rfl, rfl⟩
  · show writeBytes (fun a => if a = P then s.length % 256 else k.strings a) (P + 1) s P
      = s.length % 256
    rw [writeBytes_out _ _ _ _ (Or.inl (by omega))]
    simp
  · intro i hi
    show writeBytes (fun a => if a = P then s.length % 256 else k.strings a) (P + 1) s
      (P + 1 + i) = s.get ⟨i, hi⟩ % 256
    exact writeBytes_in _ _ _ _ hi
  · intro a ha
    show writeBytes (fun x => if x = P then s.length % 256 else k.strings x) (P + 1) s a
      = k.strings a
    rw [writeBytes_out _ _ _ _ (Or.inl (by omega))]
    simp [Nat.ne_of_lt ha]
  · intro a ha
    show writeBytes (fun x => if x = P then s.length % 256 else k.strings x) (P + 1) s a
      = k.strings a
    rw [writeBytes_out _ _ _ _ (Or.inr (by omega))]
    have hne : a ≠ P := by omega
    simp [hne]
  · show (if k.stringPtr = k.stringPtr then ((P + 1 + s.length : Nat) : Int)
      else k.heap k.stringPtr) = ((P + 1 + s.length : Nat) : Int)
    rw [if_pos rfl]
  · intro a ha
    show (if a = k.stringPtr then ((P + 1 + s.length : Nat) : Int) else k.heap a) = k.heap a
    rw [if_neg ha]

/-- `string_get` of a counted string whose cells hold `s`. -/
theorem stringGet_spec (k : Kernel) (addr : Nat) (s : List Nat)
    (hmask : maskAddr addr = addr)
    (hcount : k.strings addr = s.length)
    (hbytes : ∀ i (hi : i < s.length), k.strings (addr + 1 + i) = s.get ⟨i, hi⟩) :
    k.stringGet addr = s := by
  rw [Kernel.stringGet]
  simp only [hmask, hcount]
  apply list_eq_of_get
  intro i hi
  exact hbytes i hi

/-- C9: for every byte string of length at most 255 that fits in the
remaining string arena, `string_new` stores it at the current free-string
pointer, advances that pointer by exactly length + 1 (the count byte is
the extra cell), and `string_get` on the returned address yields the
string back; bytes below the returned address are untouched. -/
theorem c9_string_new_get_roundtrip (k : Kernel) (s : List Nat)
    (hlen : s.length ≤ 255)
    (hbytes : ∀ b ∈ s, b < 256)
    (hpos : 0 ≤ k.heap k.stringPtr)
    (hsmall : k.heap k.stringPtr < 2 ^ 63)
    (hfit : intToUsize (k.heap k.stringPtr) + s.length < STRING_SIZE) :
    ∃ k2, k.stringNew s = .ok (intToUsize (k.heap k.stringPtr), k2) ∧
      k2.stringGet (intToUsize (k.heap k.stringPtr)) = s ∧
      k2.heap k.stringPtr = k.heap k.stringPtr + ((s.length + 1 : Nat) : Int) ∧
      k2.stackPtr = k.stackPtr ∧ k2.returnPtr = k.returnPtr ∧
      k2.stringPtr = k.stringPtr ∧
      (∀ a, a < intToUsize (k.heap k.stringPtr) → k2.strings a = k.strings a) := by
  obtain ⟨k2, he, hcount, hin, hlo, _, hfree, _, hstk, hret, hsp⟩ :=
    stringNew_spec k s (intToUsize (k.heap k.stringPtr)) rfl hfit
  have hP : ((intToUsize (k.heap k.stringPtr) : Nat) : Int) = k.heap k.stringPtr := by
    unfold intToUsize
    rw [Int.emod_eq_of_lt hpos (by omega)]
    exact Int.toNat_of_nonneg hpos
  refine ⟨k2, he, ?_, ?_, hstk, hret, hsp, hlo⟩
  · apply stringGet_spec
    · exact maskAddr_small _ (by unfold STRING_SIZE at hfit; omega)
    · rw [hcount]
      exact Nat.mod_eq_of_lt (by omega)
    · intro i hi
      rw [hin i hi]
      exact Nat.mod_eq_of_lt (hbytes _ (s.get_mem _ _))
  · rw [hfree]
    push_cast [hP]
    ring

theorem c9_string_new_get_roundtrip_witness :
    ∃ k2, k9.stringNew nameSq = .ok (500, k2) ∧
      k2.stringGet 500 = nameSq ∧
      k2.heap k9.stringPtr = k9.heap k9.stringPtr + ((nameSq.length + 1 : Nat) : Int) ∧
      k2.stackPtr = k9.stackPtr ∧ k2.returnPtr = k9.returnPtr ∧
      k2.stringPtr = k9.stringPtr ∧
      (∀ a, a < 500 → k2.strings a = k9.strings a) :=
  c9_string_new_get_roundtrip k9 nameSq (by decide) (by decide) (by decide)
    (by decide) (by decide)

end F3

namespace F3

/-! ## C8 — compile-then-execute round trip for literals -/

theorem fComma_spec (rt : ForthRuntime) (A : Nat)
    (hA : rt.kernel.get rt.herePtr = (A : Int))
    (hsmall : A < 2 ^ 63)
    (hsp : rt.kernel.stackPtr < STACK_START)
    (hne1 : rt.herePtr ≠ A) :
    ∃ rt2, fComma rt = .ok rt2 ∧
      rt2.kernel.stackPtr = rt.kernel.stackPtr + 1 ∧
      rt2.kernel.get A = rt.kernel.top ∧
      rt2.kernel.get rt.herePtr = (A : Int) + 1 ∧
      rt2.kernel.returnPtr = rt.kernel.returnPtr ∧
      rt2.kernel.strings = rt.kernel.strings ∧
      rt2.herePtr = rt.herePtr ∧ rt2.abortPtr = rt.abortPtr ∧
      rt2.msgLog = rt.msgLog ∧
      (∀ a, a ≠ A → a ≠ rt.herePtr → rt2.kernel.get a = rt.kernel.get a) := by
  rw [fComma, hA, intToUsize_ofNat A (by omega), ForthRuntime.pop_ok rt hsp]
  simp only [except_bind_ok]
  have hne1' : A ≠ rt.herePtr := fun he => hne1 he.symm
  have hA' : rt.kernel.heap rt.herePtr = (A : Int) := hA
  refine ⟨_, rfl, rfl, ?_, ?_, rfl, rfl, rfl, rfl, rfl, ?_⟩
  · simp [ForthRuntime.set, ForthRuntime.incr, Kernel.incr, Kernel.set, Kernel.get,
      hne1']
  · simp [ForthRuntime.set, ForthRuntime.incr, Kernel.incr, Kernel.set, Kernel.get,
      hne1, hA']
  · intro a ha1 ha2
    simp [ForthRuntime.set, ForthRuntime.incr, Kernel.incr, Kernel.set, Kernel.get,
      ha1, ha2]

theorem idLoop_literal_step (tbl : Nat → ForthRuntime → ForthRuntime)
    (maxB fuel pc d : Nat) (rt : ForthRuntime)
    (hpc : pc ≠ 0) (habort : getAbortFlag rt = false) (hlt : pc < DATA_SIZE)
    (hcode : rt.kernel.get pc = LITERAL) (hsp : 0 < rt.kernel.stackPtr) :
    ∃ rt1, rt.push (rt.kernel.get (pc + 1)) = .ok rt1 ∧
      idLoop tbl maxB (fuel + 1) pc d rt = idLoop tbl maxB fuel (pc + 2) d rt1 := by
  refine ⟨_, ForthRuntime.push_ok rt _ hsp, ?_⟩
  simp only [idLoop]
  rw [innerRun]
  simp only [hpc, habort, hlt, ForthRuntime.get, if_true, if_false, ite_true,
    ite_false, or_self, or_false, false_or]
  rw [hcode]
  norm_num [BUILTIN, VARIABLE, CONSTANT, LITERAL, STRLIT, DEFINITION, BRANCH,
    BRANCH0, ABORT, EXIT, BREAK, EXEC]
  rw [ForthRuntime.push_ok rt _ hsp]
  simp only [except_bind_ok]

end F3

namespace F3

/-- C8: for every integer `n` on top of the data stack, `f_literal`
compiles the two cells `[LITERAL, n]` at HERE; running the inner
interpreter's LITERAL case over those two cells pushes `n` and advances
the program counter past them; popping then yields exactly `n`, and every
stack cell below the consumed `n` is unchanged — the compile-then-execute
round trip. -/
theorem c8_literal_compile_execute_roundtrip
    (tbl : Nat → ForthRuntime → ForthRuntime) (maxB fuel d : Nat)
    (rt : ForthRuntime) (n : Int) (H : Nat)
    (hH : rt.kernel.get rt.herePtr = (H : Int))
    (hH0 : 0 < H)
    (hhp : rt.herePtr < H)
    (hsp1 : rt.kernel.stackPtr < STACK_START)
    (hHsp : H + 1 < rt.kernel.stackPtr)
    (htop : rt.kernel.top = n)
    (habort : getAbortFlag rt = false)
    (haptr : rt.abortPtr < H)
    (haptr2 : rt.abortPtr ≠ rt.herePtr) :
    ∃ rt2 rt3 rt4,
      fLiteral rt = .ok rt2 ∧
      rt2.kernel.get H = LITERAL ∧
      rt2.kernel.get (H + 1) = n ∧
      idLoop tbl maxB (fuel + 1) H d rt2 = idLoop tbl maxB fuel (H + 2) d rt3 ∧
      rt3.pop = .ok (n, rt4) ∧
      rt4.kernel.stackPtr = rt.kernel.stackPtr + 1 ∧
      (∀ a, rt.kernel.stackPtr + 1 ≤ a → rt4.kernel.get a = rt.kernel.get a) := by
  have hSS : STACK_START = 4999 := rfl
  have hDS : DATA_SIZE = 10000 := rfl
  have hsp0 : 0 < rt.kernel.stackPtr := by omega
  rw [fLiteral, ForthRuntime.push_ok rt LITERAL hsp0]
  simp only [except_bind_ok]
  set L1 : ForthRuntime := { rt with kernel :=
    { rt.kernel with
      stackPtr := rt.kernel.stackPtr - 1,
      heap := fun a => if a = rt.kernel.stackPtr - 1 then LITERAL
        else rt.kernel.heap a } } with hL1def
  have hL1sp : L1.kernel.stackPtr = rt.kernel.stackPtr - 1 := rfl
  have hL1hp : L1.herePtr = rt.herePtr := rfl
  have hL1get : ∀ a, a ≠ rt.kernel.stackPtr - 1 → L1.kernel.get a = rt.kernel.get a := by
    intro a ha
    rw [hL1def]
    simp [Kernel.get, ha]
  have hA1 : L1.kernel.get L1.herePtr = (H : Int) := by
    rw [hL1hp, hL1get rt.herePtr (by omega)]
    exact hH
  obtain ⟨rtB, hcB, hspB, hgetAB, hgetHB, hretB, hstrB, hhpB, haB, hmlB, huB⟩ :=
    fComma_spec L1 H hA1 (by omega) (by omega) (by rw [hL1hp]; omega)
  rw [hcB]
  simp only [except_bind_ok]
  have hspB' : rtB.kernel.stackPtr = rt.kernel.stackPtr := by
    rw [hspB, hL1sp]; omega
  have hlitB : rtB.kernel.get H = LITERAL := by
    rw [hgetAB, hL1def]
    simp [ForthRuntime.top, Kernel.top]
  have hhpB' : rtB.herePtr = rt.herePtr := by rw [hhpB, hL1hp]
  have hA2 : rtB.kernel.get rtB.herePtr = ((H + 1 : Nat) : Int) := by
    rw [hhpB', ← hL1hp, hgetHB]
    push_cast
    ring
  obtain ⟨rtC, hcC, hspC, hgetAC, hgetHC, hretC, hstrC, hhpC, haC, hmlC, huC⟩ :=
    fComma_spec rtB (H + 1) hA2 (by omega) (by omega) (by rw [hhpB']; omega)
  rw [hcC]
  have htopB : rtB.kernel.top = n := by
    rw [Kernel.top, hspB']
    have h1 : rtB.kernel.get rt.kernel.stackPtr = L1.kernel.get rt.kernel.stackPtr := by
      apply huB <;> [skip; rw [hL1hp]] <;> omega
    have h2 : L1.kernel.get rt.kernel.stackPtr = rt.kernel.get rt.kernel.stackPtr :=
      hL1get _ (by omega)
    have := h1.trans h2
    rw [Kernel.get] at this
    rw [this]
    exact htop
  have hlitC1 : rtC.kernel.get H = LITERAL := by
    rw [huC H (by omega) (by rw [hhpB']; omega)]
    exact hlitB
  have hlitC2 : rtC.kernel.get (H + 1) = n := by
    rw [hgetAC, htopB]
  have hspC' : rtC.kernel.stackPtr = rt.kernel.stackPtr + 1 := by
    rw [hspC, hspB']
  have haC' : rtC.abortPtr = rt.abortPtr := by rw [haC, haB]
  have huCB : ∀ a, a ≠ H → a ≠ H + 1 → a ≠ rt.herePtr → a ≠ rt.kernel.stackPtr - 1 →
      rtC.kernel.get a = rt.kernel.get a := by
    intro a h1 h2 h3 h4
    rw [huC a h2 (by rw [hhpB']; exact h3), huB a h1 (by rw [hL1hp]; exact h3)]
    exact hL1get a h4
  have habortC : getAbortFlag rtC = false := by
    rw [getAbortFlag, haC']
    rw [show rtC.kernel.get rt.abortPtr = rt.kernel.get rt.abortPtr from
      huCB _ (by omega) (by omega) haptr2 (by omega)]
    rw [getAbortFlag] at habort
    exact habort
  obtain ⟨rt3, hpush3, hstep⟩ :=
    idLoop_literal_step tbl maxB fuel H d rtC (by omega) habortC (by omega) hlitC1
      (by omega)
  rw [hlitC2] at hpush3
  rw [ForthRuntime.push_ok rtC n (by omega)] at hpush3
  have hrt3 : rt3 = { rtC with kernel :=
      { rtC.kernel with
        stackPtr := rtC.kernel.stackPtr - 1,
        heap := fun a => if a = rtC.kernel.stackPtr - 1 then n
          else rtC.kernel.heap a } } := by
    injection hpush3 with h
    exact h.symm
  have hsp3 : rt3.kernel.stackPtr = rt.kernel.stackPtr := by
    rw [hrt3]
    show rtC.kernel.stackPtr - 1 = rt.kernel.stackPtr
    omega
  have htop3 : rt3.kernel.top = n := by
    rw [hrt3, Kernel.top]
    show (fun a => if a = rtC.kernel.stackPtr - 1 then n else rtC.kernel.heap a)
      (rtC.kernel.stackPtr - 1) = n
    simp
  have hpop3 := ForthRuntime.pop_ok rt3 (by omega)
  rw [htop3] at hpop3
  refine ⟨rtC, rt3, _, rfl, hlitC1, hlitC2, hstep, hpop3, ?_, ?_⟩
  · show rt3.kernel.stackPtr + 1 = rt.kernel.stackPtr + 1
    omega
  · intro a ha
    show rt3.kernel.get a = rt.kernel.get a
    rw [hrt3]
    have hne : a ≠ rtC.kernel.stackPtr - 1 := by omega
    show (if a = rtC.kernel.stackPtr - 1 then n else rtC.kernel.heap a) = _
    rw [if_neg hne]
    exact huCB a (by omega) (by omega) (by omega) (by omega)

end F3

namespace F3

theorem c8_literal_compile_execute_roundtrip_witness :
    ∃ rt2 rt3 rt4,
      fLiteral rtL = .ok rt2 ∧
      rt2.kernel.get 66 = LITERAL ∧
      rt2.kernel.get (66 + 1) = 77 ∧
      idLoop tblId 0 (3 + 1) 66 1 rt2 = idLoop tblId 0 3 (66 + 2) 1 rt3 ∧
      rt3.pop = .ok (77, rt4) ∧
      rt4.kernel.stackPtr = rtL.kernel.stackPtr + 1 ∧
      (∀ a, rtL.kernel.stackPtr + 1 ≤ a → rt4.kernel.get a = rtL.kernel.get a) :=
  c8_literal_compile_execute_roundtrip tblId 0 3 1 rtL 77 66 (by decide) (by decide)
    (by decide) (by decide) (by decide) (by decide) (by decide) (by decide) (by decide)

end F3

namespace F3

/-! ## C4 — unresolved tokens: warn-and-continue vs warn-and-abort -/

theorem stackCheck_ok (rt : ForthRuntime) (n : Nat) (w : String)
    (h : ¬ (STACK_START - rt.kernel.stackPtr < n)) :
    rt.stackCheck n w = .ok () := by
  rw [ForthRuntime.stackCheck, Kernel.stackCheck, if_neg h]

theorem stringGet_congr (k1 k2 : Kernel) (h : k1.strings = k2.strings)
    (addr : Nat) : k1.stringGet addr = k2.stringGet addr := by
  rw [Kernel.stringGet, Kernel.stringGet, h]

theorem getAbortFlag_fAbort (rt : ForthRuntime) : getAbortFlag (fAbort rt) = true := by
  simp [fAbort, setAbortFlag, getAbortFlag, fClear, ForthRuntime.warning,
    ForthRuntime.set, Kernel.set, Kernel.get, Kernel.reset, TRUE, FALSE]

/-- `f_find` when the dictionary walk completes without a match: the token
address is pushed back (as an `i64`) under the FALSE flag. -/
theorem fFind_notfound (fuel : Nat) (rt : ForthRuntime)
    (hsp : rt.kernel.stackPtr < STACK_START)
    (hsp0 : 0 < rt.kernel.stackPtr)
    (hfind : findLink rt.kernel.heap rt.kernel.strings (intToUsize rt.kernel.top)
      fuel (intToUsize (rt.kernel.get rt.contextPtr) - 1) = some none) :
    ∃ rt2, fFind fuel rt = .ok rt2 ∧
      rt2.kernel.stackPtr = rt.kernel.stackPtr - 1 ∧
      rt2.kernel.top = FALSE ∧
      rt2.kernel.peek 1 = usizeToInt (intToUsize rt.kernel.top) ∧
      rt2.kernel.returnPtr = rt.kernel.returnPtr ∧
      rt2.kernel.strings = rt.kernel.strings ∧
      rt2.msgLog = rt.msgLog ∧
      rt2.herePtr = rt.herePtr ∧ rt2.contextPtr = rt.contextPtr ∧
      rt2.basePtr = rt.basePtr ∧ rt2.abortPtr = rt.abortPtr ∧
      (∀ a, a ≠ rt.kernel.stackPtr - 1 → a ≠ rt.kernel.stackPtr →
        rt2.kernel.get a = rt.kernel.get a) := by
  rw [fFind, stackCheck_ok rt 1 "find" (by omega), except_bind_ok,
    ForthRuntime.pop_ok rt hsp]
  simp only [except_bind_ok]
  set L : ForthRuntime := { rt with kernel :=
    { rt.kernel with stackPtr := rt.kernel.stackPtr + 1 } } with hLdef
  have hfind' : findLink L.kernel.heap L.kernel.strings (intToUsize rt.kernel.top)
      fuel (intToUsize (L.kernel.get L.contextPtr) - 1) = some none := hfind
  rw [hfind']
  have hsp1 : (1 : Nat) < L.kernel.stackPtr := by
    show 1 < rt.kernel.stackPtr + 1
    omega
  obtain ⟨rt2, he, h1, h2, h3, h4, h5, h6, h7, h8, h9, h10, h11⟩ :=
    push_push_ok L (usizeToInt (intToUsize rt.kernel.top)) FALSE hsp1
  refine ⟨rt2, he, ?_, h2, h3, h4, h5, h6, h7, h8, h9, h10, ?_⟩
  · rw [h1]
    show rt.kernel.stackPtr + 1 - 2 = rt.kernel.stackPtr - 1
    omega
  · intro a ha1 ha2
    have e1 : L.kernel.stackPtr - 1 = rt.kernel.stackPtr := by
      show rt.kernel.stackPtr + 1 - 1 = rt.kernel.stackPtr
      omega
    have e2 : L.kernel.stackPtr - 2 = rt.kernel.stackPtr - 1 := by
      show rt.kernel.stackPtr + 1 - 2 = rt.kernel.stackPtr - 1
      omega
    rw [h11 a (by rw [e1]; exact ha2) (by rw [e2]; exact ha1)]
    rfl

/-- `number?` when the token does not parse: the address is pushed back
under the FALSE flag. -/
theorem fNumberQ_fail (rt : ForthRuntime)
    (hsp : rt.kernel.stackPtr < STACK_START) (hsp0 : 0 < rt.kernel.stackPtr)
    (hparse : parseI64 (rt.kernel.stringGet (intToUsize rt.kernel.top)) = none) :
    ∃ rt2, fNumberQ rt = .ok rt2 ∧
      rt2.kernel.stackPtr = rt.kernel.stackPtr - 1 ∧
      rt2.kernel.top = FALSE ∧
      rt2.kernel.peek 1 = rt.kernel.top ∧
      rt2.kernel.returnPtr = rt.kernel.returnPtr ∧
      rt2.kernel.strings = rt.kernel.strings ∧
      rt2.msgLog = rt.msgLog ∧
      rt2.herePtr = rt.herePtr ∧ rt2.contextPtr = rt.contextPtr ∧
      rt2.basePtr = rt.basePtr ∧ rt2.abortPtr = rt.abortPtr ∧
      (∀ a, a ≠ rt.kernel.stackPtr - 1 → a ≠ rt.kernel.stackPtr →
        rt2.kernel.get a = rt.kernel.get a) := by
  rw [fNumberQ, ForthRuntime.pop_ok rt hsp]
  simp only [except_bind_ok]
  have hL : ∀ x, (({ rt with kernel :=
      { rt.kernel with stackPtr := rt.kernel.stackPtr + 1 } } : ForthRuntime)).kernel.stringGet x
      = rt.kernel.stringGet x := fun _ => rfl
  simp only [hL, uIsInteger, hparse, Option.isSome_none, Bool.false_eq_true, if_false]
  have hsp1 : (1 : Nat) <
      (({ rt with kernel :=
        { rt.kernel with stackPtr := rt.kernel.stackPtr + 1 } } : ForthRuntime)).kernel.stackPtr := by
    show 1 < rt.kernel.stackPtr + 1
    omega
  obtain ⟨rt2, he, h1, h2, h3, h4, h5, h6, h7, h8, h9, h10, h11⟩ :=
    push_push_ok ({ rt with kernel :=
      { rt.kernel with stackPtr := rt.kernel.stackPtr + 1 } }) rt.kernel.top FALSE hsp1
  refine ⟨rt2, he, ?_, h2, h3, h4, h5, h6, h7, h8, h9, h10, ?_⟩
  · rw [h1]
    show rt.kernel.stackPtr + 1 - 2 = rt.kernel.stackPtr - 1
    omega
  · intro a ha1 ha2
    rw [h11 a ?_ ?_]
    · rfl
    · show a ≠ rt.kernel.stackPtr + 1 - 1
      omega
    · show a ≠ rt.kernel.stackPtr + 1 - 2
      omega

end F3

namespace F3

/-- C4: for a token that is neither a dictionary word (the FIND walk ends
without a match) nor a valid number (the base-10 parse fails):
`$interpret` pops the token address, logs a "token not recognized"
warning, and leaves everything else — the stack cells below the token, the
return stack, the string arena, and in particular the abort flag —
unchanged, so evaluation continues with the next token; `$compile` logs
the same warning and then raises ABORT: the abort flag is set and both
stacks are cleared. -/
theorem c4_unresolved_token
    (tbl : Nat → ForthRuntime → ForthRuntime) (maxB fuel : Nat)
    (rt : ForthRuntime)
    (hsp : rt.kernel.stackPtr < STACK_START)
    (hsp0 : 0 < rt.kernel.stackPtr)
    (htok : intToUsize rt.kernel.top < 2 ^ 63)
    (hfind : findLink rt.kernel.heap rt.kernel.strings (intToUsize rt.kernel.top)
      fuel (intToUsize (rt.kernel.get rt.contextPtr) - 1) = some none)
    (hparse : parseI64 (rt.kernel.stringGet (intToUsize rt.kernel.top)) = none) :
    (∃ rt5, fDInterpret tbl maxB fuel rt = .ok rt5 ∧
      rt5.kernel.stackPtr = rt.kernel.stackPtr + 1 ∧
      rt5.kernel.returnPtr = rt.kernel.returnPtr ∧
      rt5.kernel.strings = rt.kernel.strings ∧
      rt5.msgLog = ("$interpret" ++ ": " ++ "token not recognized") :: rt.msgLog ∧
      (∀ a, a ≠ rt.kernel.stackPtr → a ≠ rt.kernel.stackPtr - 1 →
        rt5.kernel.get a = rt.kernel.get a) ∧
      (rt.abortPtr ≠ rt.kernel.stackPtr → rt.abortPtr ≠ rt.kernel.stackPtr - 1 →
        getAbortFlag rt5 = getAbortFlag rt)) ∧
    (∃ rt6, fDCompile tbl maxB fuel rt = .ok rt6 ∧
      getAbortFlag rt6 = true ∧
      rt6.kernel.stackPtr = STACK_START ∧
      rt6.kernel.returnPtr = RET_START ∧
      rt6.msgLog = ("ABORT" ++ ": " ++ "Terminating execution") ::
        ("$interpret" ++ ": " ++ "token not recognized") :: rt.msgLog) := by
  obtain ⟨rt2, heF, hspF, htopF, hpkF, hretF, hstrF, hmlF, hhpF, hcpF, hbpF, haF, huF⟩ :=
    fFind_notfound fuel rt hsp hsp0 hfind
  have hpop2 := ForthRuntime.pop_ok rt2 (by rw [hspF]; omega)
  rw [htopF] at hpop2
  have hM1sp : rt2.kernel.stackPtr + 1 = rt.kernel.stackPtr := by omega
  set M1 : ForthRuntime := { rt2 with kernel :=
    { rt2.kernel with stackPtr := rt2.kernel.stackPtr + 1 } } with hM1def
  have hM1top : M1.kernel.top = usizeToInt (intToUsize rt.kernel.top) := hpkF
  have hstrM : M1.kernel.strings = rt.kernel.strings := hstrF
  have hparseM : parseI64 (M1.kernel.stringGet (intToUsize M1.kernel.top)) = none := by
    rw [hM1top, intToUsize_usizeToInt _ htok, stringGet_congr M1.kernel rt.kernel hstrM]
    exact hparse
  obtain ⟨rt3, heN, hspN, htopN, hpkN, hretN, hstrN, hmlN, hhpN, hcpN, hbpN, haN, huN⟩ :=
    fNumberQ_fail M1 (by show rt2.kernel.stackPtr + 1 < STACK_START; omega)
      (by show 0 < rt2.kernel.stackPtr + 1; omega) hparseM
  have hspN' : rt3.kernel.stackPtr = rt.kernel.stackPtr - 1 := by
    rw [hspN]
    show rt2.kernel.stackPtr + 1 - 1 = rt.kernel.stackPtr - 1
    omega
  have hpop3 := ForthRuntime.pop_ok rt3 (by omega)
  rw [htopN] at hpop3
  set M2 : ForthRuntime := { rt3 with kernel :=
    { rt3.kernel with stackPtr := rt3.kernel.stackPtr + 1 } } with hM2def
  have hM2sp : M2.kernel.stackPtr = rt.kernel.stackPtr := by
    show rt3.kernel.stackPtr + 1 = rt.kernel.stackPtr
    omega
  have hpop4 := ForthRuntime.pop_ok M2 (by rw [hM2sp]; omega)
  set M3 : ForthRuntime := { M2 with kernel :=
    { M2.kernel with stackPtr := M2.kernel.stackPtr + 1 } } with hM3def
  have hM3sp : M3.kernel.stackPtr = rt.kernel.stackPtr + 1 := by
    show M2.kernel.stackPtr + 1 = rt.kernel.stackPtr + 1
    omega
  have hM3ret : M3.kernel.returnPtr = rt.kernel.returnPtr := by
    show rt3.kernel.returnPtr = rt.kernel.returnPtr
    rw [hretN]
    show rt2.kernel.returnPtr = rt.kernel.returnPtr
    exact hretF
  have hM3str : M3.kernel.strings = rt.kernel.strings := by
    show rt3.kernel.strings = rt.kernel.strings
    rw [hstrN]
    exact hstrM
  have hM3ml : M3.msgLog = rt.msgLog := by
    show rt3.msgLog = rt.msgLog
    rw [hmlN]
    show rt2.msgLog = rt.msgLog
    exact hmlF
  have hM3a : M3.abortPtr = rt.abortPtr := by
    show rt3.abortPtr = rt.abortPtr
    rw [haN]
    show rt2.abortPtr = rt.abortPtr
    exact haF
  have hM3u : ∀ a, a ≠ rt.kernel.stackPtr → a ≠ rt.kernel.stackPtr - 1 →
      M3.kernel.get a = rt.kernel.get a := by
    intro a ha1 ha2
    have s1 : M3.kernel.get a = rt3.kernel.get a := rfl
    have s2 : rt3.kernel.get a = M1.kernel.get a := by
      apply huN a
      · show a ≠ rt2.kernel.stackPtr + 1 - 1
        omega
      · show a ≠ rt2.kernel.stackPtr + 1
        omega
    have s3 : M1.kernel.get a = rt2.kernel.get a := rfl
    have s4 : rt2.kernel.get a = rt.kernel.get a := by
      apply huF a
      · omega
      · omega
    rw [s1, s2, s3, s4]
  constructor
  · rw [fDInterpret, stackCheck_ok rt 1 _ (by omega), except_bind_ok, heF,
      except_bind_ok, hpop2]
    simp only [except_bind_ok]
    rw [if_neg (by norm_num [TRUE, FALSE]), heN]
    simp only [except_bind_ok]
    rw [hpop3]
    simp only [except_bind_ok]
    rw [if_neg (by norm_num [TRUE, FALSE]), hpop4]
    simp only [except_bind_ok]
    refine ⟨_, rfl, ?_, ?_, ?_, ?_, ?_, ?_⟩
    · show M3.kernel.stackPtr = rt.kernel.stackPtr + 1
      exact hM3sp
    · show M3.kernel.returnPtr = rt.kernel.returnPtr
      exact hM3ret
    · show M3.kernel.strings = rt.kernel.strings
      exact hM3str
    · show ("$interpret" ++ ": " ++ "token not recognized") :: M3.msgLog = _
      rw [hM3ml]
    · intro a ha1 ha2
      show M3.kernel.get a = rt.kernel.get a
      exact hM3u a ha1 ha2
    · intro hb1 hb2
      show getAbortFlag (M3.warning "$interpret" "token not recognized")
        = getAbortFlag rt
      rw [getAbortFlag, getAbortFlag]
      have e1 : (M3.warning "$interpret" "token not recognized").abortPtr
          = rt.abortPtr := hM3a
      have e2 : (M3.warning "$interpret" "token not recognized").kernel.get rt.abortPtr
          = rt.kernel.get rt.abortPtr := hM3u rt.abortPtr hb1 hb2
      rw [e1, e2]
  · rw [fDCompile, stackCheck_ok rt 1 _ (by omega), except_bind_ok, heF,
      except_bind_ok, hpop2]
    simp only [except_bind_ok]
    rw [if_neg (by norm_num [TRUE, FALSE]), heN]
    simp only [except_bind_ok]
    rw [hpop3]
    simp only [except_bind_ok]
    rw [if_neg (by norm_num [TRUE, FALSE]), hpop4]
    simp only [except_bind_ok]
    refine ⟨_, rfl, getAbortFlag_fAbort _, rfl, rfl, ?_⟩
    show ("ABORT" ++ ": " ++ "Terminating execution") ::
      ("$interpret" ++ ": " ++ "token not recognized") :: M3.msgLog = _
    rw [hM3ml]

end F3

namespace F3

theorem c4_unresolved_token_witness :
    (∃ rt5, fDInterpret tblId 0 1 rtG = .ok rt5 ∧
      rt5.kernel.stackPtr = rtG.kernel.stackPtr + 1 ∧
      rt5.kernel.returnPtr = rtG.kernel.returnPtr ∧
      rt5.kernel.strings = rtG.kernel.strings ∧
      rt5.msgLog = ("$interpret" ++ ": " ++ "token not recognized") :: rtG.msgLog ∧
      (∀ a, a ≠ rtG.kernel.stackPtr → a ≠ rtG.kernel.stackPtr - 1 →
        rt5.kernel.get a = rtG.kernel.get a) ∧
      (rtG.abortPtr ≠ rtG.kernel.stackPtr → rtG.abortPtr ≠ rtG.kernel.stackPtr - 1 →
        getAbortFlag rt5 = getAbortFlag rtG)) ∧
    (∃ rt6, fDCompile tblId 0 1 rtG = .ok rt6 ∧
      getAbortFlag rt6 = true ∧
      rt6.kernel.stackPtr = STACK_START ∧
      rt6.kernel.returnPtr = RET_START ∧
      rt6.msgLog = ("ABORT" ++ ": " ++ "Terminating execution") ::
        ("$interpret" ++ ": " ++ "token not recognized") :: rtG.msgLog) :=
  c4_unresolved_token tblId 0 1 rtG (by decide) (by decide) (by decide) (by decide)
    (by decide)

end F3

namespace F3

/-! ## C3 — LIFO shadowing: FIND resolves to the newest definition -/

theorem writeArgs_fst (args : List Int) : ∀ (rt : ForthRuntime) (ptr : Nat),
    (writeArgs rt ptr args).1 = ptr + args.length := by
  induction args with
  | nil => intro rt ptr; simp [writeArgs]
  | cons a rest ih =>
    intro rt ptr
    simp only [writeArgs, List.length_cons]
    rw [ih]
    omega

theorem writeArgs_fields (args : List Int) : ∀ (rt : ForthRuntime) (ptr : Nat),
    (writeArgs rt ptr args).2.kernel.stackPtr = rt.kernel.stackPtr ∧
    (writeArgs rt ptr args).2.kernel.returnPtr = rt.kernel.returnPtr ∧
    (writeArgs rt ptr args).2.kernel.stringPtr = rt.kernel.stringPtr ∧
    (writeArgs rt ptr args).2.kernel.strings = rt.kernel.strings ∧
    (writeArgs rt ptr args).2.herePtr = rt.herePtr ∧
    (writeArgs rt ptr args).2.contextPtr = rt.contextPtr ∧
    (writeArgs rt ptr args).2.basePtr = rt.basePtr ∧
    (writeArgs rt ptr args).2.abortPtr = rt.abortPtr ∧
    (writeArgs rt ptr args).2.msgLog = rt.msgLog := by
  induction args with
  | nil =>
    intro rt ptr
    exact ⟨rfl, rfl, rfl, rfl, rfl, rfl, rfl, rfl, rfl⟩
  | cons a rest ih =>
    intro rt ptr
    simp only [writeArgs]
    exact ih (rt.set (ptr + 1) a) (ptr + 1)

theorem writeArgs_get_out (args : List Int) : ∀ (rt : ForthRuntime) (ptr a : Nat),
    (a ≤ ptr ∨ ptr + args.length < a) →
    (writeArgs rt ptr args).2.kernel.get a = rt.kernel.get a := by
  induction args with
  | nil => intro rt ptr a _; rfl
  | cons x rest ih =>
    intro rt ptr a h
    simp only [writeArgs]
    rw [ih (rt.set (ptr + 1) x) (ptr + 1) a (by simp at h; omega)]
    exact Kernel.get_set_of_ne rt.kernel x (by simp at h; omega)

theorem writeArgs_get_in (args : List Int) : ∀ (rt : ForthRuntime) (ptr i : Nat)
    (hi : i < args.length),
    (writeArgs rt ptr args).2.kernel.get (ptr + 1 + i) = args.get ⟨i, hi⟩ := by
  induction args with
  | nil => intro rt ptr i hi; simp at hi
  | cons x rest ih =>
    intro rt ptr i hi
    simp only [writeArgs]
    rcases Nat.eq_zero_or_pos i with rfl | hpos
    · rw [writeArgs_get_out rest _ _ _ (Or.inl (by omega))]
      show (rt.kernel.set (ptr + 1) x).get (ptr + 1 + 0) = x
      have e : ptr + 1 + 0 = ptr + 1 := by omega
      rw [e, Kernel.get_set_self]
    · have hi' : i - 1 < rest.length := by simp at hi; omega
      have e : ptr + 1 + i = (ptr + 1) + 1 + (i - 1) := by omega
      rw [e, ih _ _ _ hi']
      rcases i with _ | j
      · omega
      · simp

theorem stringEqual_true (s : Nat → Nat) (a1 a2 : Nat)
    (h0 : s a1 = s a2)
    (hb : ∀ i, 1 ≤ i → i ≤ s a1 → s (a1 + i) = s (a2 + i)) :
    stringEqual s a1 a2 = true := by
  rw [stringEqual, if_neg (by simp [h0])]
  rw [List.all_eq_true]
  intro i hi
  simp only [List.mem_range] at hi
  rcases Nat.eq_zero_or_pos i with rfl | hpos
  · simp [h0]
  · simp only [decide_eq_true_eq]
    exact hb i hpos (by omega)

end F3

namespace F3

/-- `make_word` characterized cell by cell: the header is built at HERE
(name pointer, payload, back pointer), HERE and CONTEXT are updated, the
name goes into the string arena at the free-string pointer, and everything
else is untouched.  The returned value `H + 1` is `back + 2`, the code
field address. -/
theorem makeWord_spec (rt : ForthRuntime) (name : List Nat) (args : List Int)
    (H P : Nat)
    (hH : intToUsize (rt.kernel.get rt.herePtr) = H)
    (hP : intToUsize (rt.kernel.heap rt.kernel.stringPtr) = P)
    (h1 : 1 ≤ H)
    (hfit : P + name.length < STRING_SIZE)
    (hbound : H + args.length + 2 < 2 ^ 56)
    (hhp : rt.herePtr < H) (hcp : rt.contextPtr < H) (hksp : rt.kernel.stringPtr < H)
    (hhc : rt.herePtr ≠ rt.contextPtr) (hhs : rt.herePtr ≠ rt.kernel.stringPtr)
    (hcs : rt.contextPtr ≠ rt.kernel.stringPtr) :
    ∃ rt2, makeWord rt name args = .ok (H + 1, rt2) ∧
      rt2.herePtr = rt.herePtr ∧ rt2.contextPtr = rt.contextPtr ∧
      rt2.abortPtr = rt.abortPtr ∧ rt2.basePtr = rt.basePtr ∧
      rt2.kernel.stringPtr = rt.kernel.stringPtr ∧
      rt2.kernel.stackPtr = rt.kernel.stackPtr ∧
      rt2.kernel.returnPtr = rt.kernel.returnPtr ∧
      rt2.msgLog = rt.msgLog ∧
      rt2.kernel.get rt.herePtr = ((H + args.length + 2 : Nat) : Int) ∧
      rt2.kernel.get rt.contextPtr = ((H : Nat) : Int) ∧
      rt2.kernel.heap rt.kernel.stringPtr = ((P + 1 + name.length : Nat) : Int) ∧
      rt2.kernel.get H = ((P : Nat) : Int) ∧
      (∀ i (hi : i < args.length), rt2.kernel.get (H + 1 + i) = args.get ⟨i, hi⟩) ∧
      rt2.kernel.get (H + args.length + 1) = ((H - 1 : Nat) : Int) ∧
      (∀ a, a ≠ rt.herePtr → a ≠ rt.contextPtr → a ≠ rt.kernel.stringPtr →
        (a < H ∨ H + args.length + 1 < a) → rt2.kernel.get a = rt.kernel.get a) ∧
      rt2.kernel.strings P = name.length % 256 ∧
      (∀ i (hi : i < name.length), rt2.kernel.strings (P + 1 + i)
        = name.get ⟨i, hi⟩ % 256) ∧
      (∀ a, a < P → rt2.kernel.strings a = rt.kernel.strings a) := by
  have hSS : STRING_SIZE = 10000 := rfl
  obtain ⟨k2, hsn, hk1, hk2i, hk3, hk4, hk5, hk6, hk7, hk8, hk9⟩ :=
    stringNew_spec rt.kernel name P hP hfit
  set X : ForthRuntime :=
    ({ rt with kernel := k2 } : ForthRuntime).set (H - 1 + 1) (usizeToInt P) with hX
  set WA := writeArgs X (H - 1 + 1) args with hWAdef
  set rt4 : ForthRuntime := WA.2.set (WA.1 + 1) (usizeToInt (H - 1)) with hrt4
  set rt5 : ForthRuntime := rt4.set rt4.herePtr (usizeToInt (WA.1 + 1) + 1) with hrt5
  set rt6 : ForthRuntime := rt5.set rt5.contextPtr (usizeToInt (H - 1) + 1) with hrt6
  have hbody : makeWord rt name args = .ok (H - 1 + 2, rt6) := by
    rw [makeWord, hH, hsn]
    rfl
  have eH : H - 1 + 1 = H := by omega
  have eH2 : H - 1 + 2 = H + 1 := by omega
  obtain ⟨hWstk, hWret, hWsp, hWstr, hWhp, hWcp, hWbp, hWa, hWml⟩ :=
    writeArgs_fields args X (H - 1 + 1)
  have hWA1 : WA.1 = H + args.length := by
    rw [hWAdef, writeArgs_fst]
    omega
  -- runtime pointer fields survive every step
  have hf_hp : rt6.herePtr = rt.herePtr := by
    show WA.2.herePtr = rt.herePtr
    rw [hWhp]
    rfl
  have hf_cp : rt6.contextPtr = rt.contextPtr := by
    show WA.2.contextPtr = rt.contextPtr
    rw [hWcp]
    rfl
  have hf_ap : rt6.abortPtr = rt.abortPtr := by
    show WA.2.abortPtr = rt.abortPtr
    rw [hWa]
    rfl
  have hf_bp : rt6.basePtr = rt.basePtr := by
    show WA.2.basePtr = rt.basePtr
    rw [hWbp]
    rfl
  have hf_sp : rt6.kernel.stringPtr = rt.kernel.stringPtr := by
    show WA.2.kernel.stringPtr = rt.kernel.stringPtr
    rw [hWsp]
    exact hk9
  have hf_stk : rt6.kernel.stackPtr = rt.kernel.stackPtr := by
    show WA.2.kernel.stackPtr = rt.kernel.stackPtr
    rw [hWstk]
    exact hk7
  have hf_ret : rt6.kernel.returnPtr = rt.kernel.returnPtr := by
    show WA.2.kernel.returnPtr = rt.kernel.returnPtr
    rw [hWret]
    exact hk8
  have hf_ml : rt6.msgLog = rt.msgLog := by
    show WA.2.msgLog = rt.msgLog
    rw [hWml]
    rfl
  have hstr6 : rt6.kernel.strings = k2.strings := by
    show WA.2.kernel.strings = k2.strings
    rw [hWstr]
    rfl
  -- the two bookkeeping cells
  have hsmall1 : H + args.length + 1 < 2 ^ 63 := by
    have : (2 : Nat) ^ 56 < 2 ^ 63 := by norm_num
    omega
  have hget_here : rt6.kernel.get rt.herePtr = ((H + args.length + 2 : Nat) : Int) := by
    rw [hrt6, hrt5]
    have hcphere : rt.herePtr ≠ rt5.contextPtr := by
      rw [show rt5.contextPtr = rt.contextPtr from by
        show WA.2.contextPtr = rt.contextPtr; rw [hWcp]; rfl]
      exact hhc
    rw [show (rt5.set rt5.contextPtr (usizeToInt (H - 1) + 1)).kernel.get rt.herePtr
        = rt5.kernel.get rt.herePtr from Kernel.get_set_of_ne _ _ hcphere]
    rw [hrt5]
    rw [show rt4.herePtr = rt.herePtr from by
      show WA.2.herePtr = rt.herePtr; rw [hWhp]; rfl]
    rw [show (rt4.set rt.herePtr (usizeToInt (WA.1 + 1) + 1)).kernel.get rt.herePtr
        = usizeToInt (WA.1 + 1) + 1 from Kernel.get_set_self _ _ _]
    rw [hWA1, usizeToInt_small _ (by omega)]
    omega
  have hget_ctx : rt6.kernel.get rt.contextPtr = ((H : Nat) : Int) := by
    rw [hrt6]
    rw [show rt5.contextPtr = rt.contextPtr from by
      show WA.2.contextPtr = rt.contextPtr; rw [hWcp]; rfl]
    rw [show (rt5.set rt.contextPtr (usizeToInt (H - 1) + 1)).kernel.get rt.contextPtr
        = usizeToInt (H - 1) + 1 from Kernel.get_set_self _ _ _]
    rw [usizeToInt_small _ (by omega)]
    omega
  -- generic: reading a cell other than the two pointer cells and the
  -- final back-pointer cell goes through to the writeArgs state
  have hpeel : ∀ a, a ≠ rt.herePtr → a ≠ rt.contextPtr → a ≠ WA.1 + 1 →
      rt6.kernel.get a = WA.2.kernel.get a := by
    intro a ha1 ha2 ha3
    rw [hrt6]
    rw [show rt5.contextPtr = rt.contextPtr from by
      show WA.2.contextPtr = rt.contextPtr; rw [hWcp]; rfl]
    rw [show (rt5.set rt.contextPtr (usizeToInt (H - 1) + 1)).kernel.get a
        = rt5.kernel.get a from Kernel.get_set_of_ne _ _ ha2]
    rw [hrt5]
    rw [show rt4.herePtr = rt.herePtr from by
      show WA.2.herePtr = rt.herePtr; rw [hWhp]; rfl]
    rw [show (rt4.set rt.herePtr (usizeToInt (WA.1 + 1) + 1)).kernel.get a
        = rt4.kernel.get a from Kernel.get_set_of_ne _ _ ha1]
    rw [hrt4]
    exact Kernel.get_set_of_ne _ _ ha3
  have hget_free : rt6.kernel.heap rt.kernel.stringPtr
      = ((P + 1 + name.length : Nat) : Int) := by
    have h := hpeel rt.kernel.stringPtr (fun he => hhs he.symm) (fun he => hcs he.symm)
      (by rw [hWA1]; omega)
    rw [Kernel.get] at h
    rw [h]
    have h2 : WA.2.kernel.get rt.kernel.stringPtr = X.kernel.get rt.kernel.stringPtr := by
      rw [hWAdef]
      exact writeArgs_get_out args X (H - 1 + 1) rt.kernel.stringPtr (Or.inl (by omega))
    rw [h2]
    show ((({ rt with kernel := k2 } : ForthRuntime)).kernel.set (H - 1 + 1)
      (usizeToInt P)).get rt.kernel.stringPtr = _
    rw [Kernel.get_set_of_ne _ _ (by omega)]
    exact hk5
  have hget_name : rt6.kernel.get H = ((P : Nat) : Int) := by
    rw [hpeel H (by omega) (by omega) (by rw [hWA1]; omega)]
    rw [hWAdef, writeArgs_get_out args X (H - 1 + 1) H (Or.inl (by omega))]
    rw [hX]
    show ((({ rt with kernel := k2 } : ForthRuntime)).kernel.set (H - 1 + 1)
      (usizeToInt P)).get H = ((P : Nat) : Int)
    rw [eH]
    rw [Kernel.get_set_self]
    exact usizeToInt_small P (by omega)
  have hget_args : ∀ i (hi : i < args.length),
      rt6.kernel.get (H + 1 + i) = args.get ⟨i, hi⟩ := by
    intro i hi
    rw [hpeel (H + 1 + i) (by omega) (by omega) (by rw [hWA1]; omega)]
    rw [hWAdef]
    have e : H + 1 + i = (H - 1 + 1) + 1 + i := by omega
    rw [e]
    exact writeArgs_get_in args X (H - 1 + 1) i hi
  have hget_back : rt6.kernel.get (H + args.length + 1) = ((H - 1 : Nat) : Int) := by
    rw [hrt6]
    rw [show rt5.contextPtr = rt.contextPtr from by
      show WA.2.contextPtr = rt.contextPtr; rw [hWcp]; rfl]
    rw [show (rt5.set rt.contextPtr (usizeToInt (H - 1) + 1)).kernel.get
          (H + args.length + 1)
        = rt5.kernel.get (H + args.length + 1) from Kernel.get_set_of_ne _ _ (by omega)]
    rw [hrt5]
    rw [show rt4.herePtr = rt.herePtr from by
      show WA.2.herePtr = rt.herePtr; rw [hWhp]; rfl]
    rw [show (rt4.set rt.herePtr (usizeToInt (WA.1 + 1) + 1)).kernel.get
          (H + args.length + 1)
        = rt4.kernel.get (H + args.length + 1) from Kernel.get_set_of_ne _ _ (by omega)]
    rw [hrt4]
    rw [show H + args.length + 1 = WA.1 + 1 from by rw [hWA1]]
    rw [show (WA.2.set (WA.1 + 1) (usizeToInt (H - 1))).kernel.get (WA.1 + 1)
        = usizeToInt (H - 1) from Kernel.get_set_self _ _ _]
    exact usizeToInt_small _ (by omega)
  have huntouched : ∀ a, a ≠ rt.herePtr → a ≠ rt.contextPtr →
      a ≠ rt.kernel.stringPtr → (a < H ∨ H + args.length + 1 < a) →
      rt6.kernel.get a = rt.kernel.get a := by
    intro a ha1 ha2 ha3 hrange
    rw [hpeel a ha1 ha2 (by rw [hWA1]; omega)]
    rw [hWAdef, writeArgs_get_out args X (H - 1 + 1) a (by omega)]
    rw [hX]
    show ((({ rt with kernel := k2 } : ForthRuntime)).kernel.set (H - 1 + 1)
      (usizeToInt P)).get a = rt.kernel.get a
    rw [Kernel.get_set_of_ne _ _ (by omega)]
    show k2.heap a = rt.kernel.heap a
    exact hk6 a ha3
  refine ⟨rt6, by rw [hbody, eH2], hf_hp, hf_cp, hf_ap, hf_bp, hf_sp, hf_stk,
    hf_ret, hf_ml, hget_here, hget_ctx, hget_free, hget_name, hget_args, hget_back,
    huntouched, ?_, ?_, ?_⟩
  · rw [show rt6.kernel.strings P = k2.strings P from by rw [hstr6]]
    exact hk1
  · intro i hi
    rw [show rt6.kernel.strings (P + 1 + i) = k2.strings (P + 1 + i) from by rw [hstr6]]
    exact hk2i i hi
  · intro a ha
    rw [show rt6.kernel.strings a = k2.strings a from by rw [hstr6]]
    exact hk3 a ha

end F3

namespace F3

/-- `f_find` when the dictionary walk finds a match at `link`: the code
field address `link + 2` is pushed under the TRUE flag. -/
theorem fFind_found (fuel : Nat) (rt : ForthRuntime) (link : Nat)
    (hsp : rt.kernel.stackPtr < STACK_START)
    (hsp0 : 0 < rt.kernel.stackPtr)
    (hfind : findLink rt.kernel.heap rt.kernel.strings (intToUsize rt.kernel.top)
      fuel (intToUsize (rt.kernel.get rt.contextPtr) - 1) = some (some link)) :
    ∃ rt2, fFind fuel rt = .ok rt2 ∧
      rt2.kernel.top = TRUE ∧
      rt2.kernel.peek 1 = usizeToInt link + 2 := by
  rw [fFind, stackCheck_ok rt 1 "find" (by omega), except_bind_ok,
    ForthRuntime.pop_ok rt hsp]
  simp only [except_bind_ok]
  set L : ForthRuntime := { rt with kernel :=
    { rt.kernel with stackPtr := rt.kernel.stackPtr + 1 } } with hLdef
  have hfind' : findLink L.kernel.heap L.kernel.strings (intToUsize rt.kernel.top)
      fuel (intToUsize (L.kernel.get L.contextPtr) - 1) = some (some link) := hfind
  rw [hfind']
  have hsp1 : (1 : Nat) < L.kernel.stackPtr := by
    show 1 < rt.kernel.stackPtr + 1
    omega
  obtain ⟨rt2, he, h1, h2, h3, h4, h5, h6, h7, h8, h9, h10, h11⟩ :=
    push_push_ok L (usizeToInt link + 2) TRUE hsp1
  exact ⟨rt2, he, h2, h3⟩

end F3

namespace F3

/-- C3: defining the same name twice and then running FIND on that name
resolves to the second definition.  `make_word` run twice from HERE = `H`
returns distinct code field addresses `H + 1` and `H + |args1| + 3`; the
first record's cells are still intact after the second definition; and
`f_find` on the name (pushed as a counted-string address) walks the
backlink chain from CONTEXT and answers TRUE with the second cfa on the
stack. -/
theorem c3_find_resolves_to_second (rt : ForthRuntime) (name : List Nat)
    (args1 args2 : List Int) (H P sourceAddr fuel : Nat)
    (hH : intToUsize (rt.kernel.get rt.herePtr) = H)
    (hP : intToUsize (rt.kernel.heap rt.kernel.stringPtr) = P)
    (h1 : 1 ≤ H)
    (hname_len : name.length < 256)
    (hname_bytes : ∀ i (hi : i < name.length), name.get ⟨i, hi⟩ < 256)
    (hsrc_len : rt.kernel.strings sourceAddr = name.length)
    (hsrc_bytes : ∀ i (hi : i < name.length),
      rt.kernel.strings (sourceAddr + 1 + i) = name.get ⟨i, hi⟩)
    (hsrc_lt : sourceAddr + name.length < P)
    (hfit : P + 2 * name.length + 2 < STRING_SIZE)
    (hbound : H + args1.length + args2.length + 8 < 2 ^ 56)
    (hhp : rt.herePtr < H) (hcp : rt.contextPtr < H)
    (hksp : rt.kernel.stringPtr < H)
    (hhc : rt.herePtr ≠ rt.contextPtr) (hhs : rt.herePtr ≠ rt.kernel.stringPtr)
    (hcs : rt.contextPtr ≠ rt.kernel.stringPtr)
    (hsp_hi : rt.kernel.stackPtr ≤ STACK_START)
    (hsp_lo : 1 < rt.kernel.stackPtr)
    (hsep : H + args1.length + args2.length + 8 < rt.kernel.stackPtr) :
    ∃ (rtB rtC rtIn rtOut : ForthRuntime),
      makeWord rt name args1 = .ok (H + 1, rtB) ∧
      makeWord rtB name args2 = .ok (H + args1.length + 3, rtC) ∧
      H + 1 ≠ H + args1.length + 3 ∧
      (∀ a, H ≤ a → a ≤ H + args1.length + 1 →
        rtC.kernel.get a = rtB.kernel.get a) ∧
      rtC.push (sourceAddr : Int) = .ok rtIn ∧
      fFind (fuel + 1) rtIn = .ok rtOut ∧
      rtOut.kernel.top = TRUE ∧
      rtOut.kernel.peek 1 = ((H + args1.length + 3 : Nat) : Int) := by
  have hSS : STRING_SIZE = 10000 := rfl
  have hST : STACK_START = 4999 := rfl
  have hpow1 : (10000 : Nat) < 2 ^ 56 := by norm_num
  have hpow2 : (2 : Nat) ^ 56 < 2 ^ 63 := by norm_num
  have hpow3 : (2 : Nat) ^ 63 < 2 ^ 64 := by norm_num
  obtain ⟨rtB, hmk1, hB_hp, hB_cp, _hB_ap, _hB_bp, hB_sp, hB_stk, _hB_ret,
    _hB_ml, hB_here, _hB_ctx, hB_free, _hB_name, _hB_args, _hB_back, _hB_un,
    _hB_s1, _hB_s2i, hB_s3⟩ :=
    makeWord_spec rt name args1 H P hH hP h1 (by omega) (by omega)
      hhp hcp hksp hhc hhs hcs
  have hH2 : intToUsize (rtB.kernel.get rtB.herePtr) = H + args1.length + 2 := by
    rw [hB_hp, hB_here]
    exact intToUsize_ofNat _ (by omega)
  have hP2 : intToUsize (rtB.kernel.heap rtB.kernel.stringPtr)
      = P + 1 + name.length := by
    rw [hB_sp, hB_free]
    exact intToUsize_ofNat _ (by omega)
  obtain ⟨rtC, hmk2, _hC_hp, hC_cp, _hC_ap, _hC_bp, _hC_sp, hC_stk, _hC_ret,
    _hC_ml, _hC_here, hC_ctx, _hC_free, hC_name, _hC_args, _hC_back, hC_un,
    hC_s1, hC_s2i, hC_s3⟩ :=
    makeWord_spec rtB name args2 (H + args1.length + 2) (P + 1 + name.length)
      hH2 hP2 (by omega) (by omega) (by omega)
      (by rw [hB_hp]; omega) (by rw [hB_cp]; omega) (by rw [hB_sp]; omega)
      (by rw [hB_hp, hB_cp]; exact hhc) (by rw [hB_hp, hB_sp]; exact hhs)
      (by rw [hB_cp, hB_sp]; exact hcs)
  have hmk2' : makeWord rtB name args2 = .ok (H + args1.length + 3, rtC) := by
    have e : H + args1.length + 2 + 1 = H + args1.length + 3 := by omega
    rw [e] at hmk2
    exact hmk2
  have hCsp : rtC.kernel.stackPtr = rt.kernel.stackPtr := by rw [hC_stk, hB_stk]
  set rtIn : ForthRuntime := { rtC with kernel :=
    { rtC.kernel with
      stackPtr := rtC.kernel.stackPtr - 1,
      heap := fun a => if a = rtC.kernel.stackPtr - 1 then (sourceAddr : Int)
        else rtC.kernel.heap a } } with hrtIn
  have hpush : rtC.push (sourceAddr : Int) = .ok rtIn :=
    ForthRuntime.push_ok rtC _ (by omega)
  have hIn_top : rtIn.kernel.top = (sourceAddr : Int) := by
    show (fun a => if a = rtC.kernel.stackPtr - 1 then (sourceAddr : Int)
      else rtC.kernel.heap a) (rtC.kernel.stackPtr - 1) = (sourceAddr : Int)
    simp
  have hIn_heap : ∀ a, a ≠ rtC.kernel.stackPtr - 1 →
      rtIn.kernel.heap a = rtC.kernel.heap a := by
    intro a h
    show (if a = rtC.kernel.stackPtr - 1 then (sourceAddr : Int)
      else rtC.kernel.heap a) = rtC.kernel.heap a
    rw [if_neg h]
  have hcc : rtIn.contextPtr = rt.contextPtr := by
    show rtC.contextPtr = rt.contextPtr
    rw [hC_cp, hB_cp]
  have hgctx : rtIn.kernel.get rtIn.contextPtr
      = ((H + args1.length + 2 : Nat) : Int) := by
    rw [hcc]
    show rtIn.kernel.heap rt.contextPtr = ((H + args1.length + 2 : Nat) : Int)
    rw [hIn_heap rt.contextPtr (by omega)]
    have h := hC_ctx
    rw [hB_cp] at h
    exact h
  have e1 : rtIn.kernel.strings sourceAddr = name.length := by
    show rtC.kernel.strings sourceAddr = name.length
    rw [hC_s3 sourceAddr (by omega), hB_s3 sourceAddr (by omega)]
    exact hsrc_len
  have e2 : rtIn.kernel.strings (P + 1 + name.length) = name.length := by
    show rtC.kernel.strings (P + 1 + name.length) = name.length
    rw [hC_s1]
    exact Nat.mod_eq_of_lt hname_len
  have e3 : ∀ i (hi : i < name.length),
      rtIn.kernel.strings (sourceAddr + 1 + i) = name.get ⟨i, hi⟩ := by
    intro i hi
    show rtC.kernel.strings (sourceAddr + 1 + i) = name.get ⟨i, hi⟩
    rw [hC_s3 (sourceAddr + 1 + i) (by omega), hB_s3 (sourceAddr + 1 + i) (by omega)]
    exact hsrc_bytes i hi
  have e4 : ∀ i (hi : i < name.length),
      rtIn.kernel.strings (P + 1 + name.length + 1 + i) = name.get ⟨i, hi⟩ := by
    intro i hi
    show rtC.kernel.strings (P + 1 + name.length + 1 + i) = name.get ⟨i, hi⟩
    rw [hC_s2i i hi]
    exact Nat.mod_eq_of_lt (hname_bytes i hi)
  have hstreq : stringEqual rtIn.kernel.strings sourceAddr
      (P + 1 + name.length) = true := by
    apply stringEqual_true
    · rw [e1, e2]
    · intro i h1i hile
      rw [e1] at hile
      have hi' : i - 1 < name.length := by omega
      have a1 : sourceAddr + i = sourceAddr + 1 + (i - 1) := by omega
      have a2 : P + 1 + name.length + i = P + 1 + name.length + 1 + (i - 1) := by
        omega
      rw [a1, a2, e3 (i - 1) hi', e4 (i - 1) hi']
  have hfindstep : findLink rtIn.kernel.heap rtIn.kernel.strings
      (intToUsize rtIn.kernel.top) (fuel + 1)
      (intToUsize (rtIn.kernel.get rtIn.contextPtr) - 1)
      = some (some (H + args1.length + 1)) := by
    rw [hgctx, hIn_top, intToUsize_ofNat (H + args1.length + 2) (by omega),
      intToUsize_ofNat sourceAddr (by omega)]
    have hl : H + args1.length + 2 - 1 = H + args1.length + 1 := by omega
    rw [hl]
    simp only [findLink, gt_iff_lt]
    rw [if_pos (show 0 < H + args1.length + 1 by omega)]
    rw [show H + args1.length + 1 + 1 = H + args1.length + 2 from by omega]
    rw [if_neg (show ¬ (H + args1.length + 2 = rtC.kernel.stackPtr - 1) by omega)]
    have hC_name' : rtC.kernel.heap (H + args1.length + 2)
        = ((P + 1 + name.length : Nat) : Int) := hC_name
    rw [hC_name', intToUsize_ofNat (P + 1 + name.length) (by omega),
      maskAddr_small (P + 1 + name.length) (by omega)]
    have hstreq' : stringEqual rtC.kernel.strings sourceAddr
        (P + 1 + name.length) = true := hstreq
    rw [hstreq']
    simp
  have hspIn : rtIn.kernel.stackPtr < STACK_START := by
    show rtC.kernel.stackPtr - 1 < STACK_START
    omega
  have hsp0In : 0 < rtIn.kernel.stackPtr := by
    show 0 < rtC.kernel.stackPtr - 1
    omega
  obtain ⟨rtOut, hfe, htopOut, hpeekOut⟩ :=
    fFind_found (fuel + 1) rtIn (H + args1.length + 1) hspIn hsp0In hfindstep
  refine ⟨rtB, rtC, rtIn, rtOut, hmk1, hmk2', by omega, ?_, hpush, hfe,
    htopOut, ?_⟩
  · intro a ha1 ha2
    exact hC_un a (by rw [hB_hp]; omega) (by rw [hB_cp]; omega)
      (by rw [hB_sp]; omega) (Or.inl (by omega))
  · rw [hpeekOut, usizeToInt_small _ (by omega)]
    omega

end F3

namespace F3

theorem c3_find_resolves_to_second_witness :
    ∃ (rtB rtC rtIn rtOut : ForthRuntime),
      makeWord rtF nameSq [(5 : Int)] = .ok (67, rtB) ∧
      makeWord rtB nameSq [(7 : Int)] = .ok (70, rtC) ∧
      (67 : Nat) ≠ 70 ∧
      (∀ a, 66 ≤ a → a ≤ 68 → rtC.kernel.get a = rtB.kernel.get a) ∧
      rtC.push ((300 : Nat) : Int) = .ok rtIn ∧
      fFind 1 rtIn = .ok rtOut ∧
      rtOut.kernel.top = TRUE ∧
      rtOut.kernel.peek 1 = ((70 : Nat) : Int) :=
  c3_find_resolves_to_second rtF nameSq [(5 : Int)] [(7 : Int)] 66 500 300 0
    (by decide) (by decide) (by decide) (by decide) (by decide) (by decide)
    (by decide) (by decide) (by decide) (by decide) (by decide) (by decide)
    (by decide) (by decide) (by decide) (by decide) (by decide) (by decide)
    (by decide)

end F3
